import Mathlib

/-!
Shallow embedding of the gofast-server data plane: the typed keyspace with
TTL index, the command handlers, the MGET/MSET/PIPELINE batch engines and
the frame / pipeline parsers, translated from the Go source
(`protocol.go`, `types.go`, the handler and container files).

Byte strings are modelled as `List Nat` (one `Nat` per byte), the keyspace
and the TTL index as association lists, and mutation as explicit state
passing.  Handlers that the Go code writes as mutation of a shared
`sync.Map` return a pair of the response and the updated state.
-/

namespace GoFast

/-- A byte string: one `Nat` per byte. -/
abbrev Bytes := List Nat

/-- Bytes of an ASCII string literal (all characters involved are < 128). -/
def ascii (s : String) : Bytes := s.data.map Char.toNat

/-- Decimal digits of `n`, most significant first, via fuelled division;
64 units of fuel cover every value that fits in 64 bits. -/
def natDigitsAux : Nat → Nat → List Nat
  | 0, _ => []
  | fuel + 1, n => if n < 10 then [n] else natDigitsAux fuel (n / 10) ++ [n % 10]

/-- ASCII decimal rendering of a natural number (Go `fmt.Sprintf "%d"` /
`strconv.FormatInt` on a non-negative value). -/
def asciiOfNat (n : Nat) : Bytes := (natDigitsAux 64 n).map (fun d => 48 + d)

/-- ASCII decimal rendering of an integer (Go `strconv.FormatInt`,
`fmt.Sprintf "%d"` on an `int64`). -/
def asciiOfInt : Int → Bytes
  | Int.ofNat n => asciiOfNat n
  | Int.negSucc m => 45 :: asciiOfNat (m + 1)

/-- Big-endian 4-byte encoding of `n` (Go `binary.BigEndian.PutUint32`). -/
def u32be (n : Nat) : Bytes :=
  [n / 2 ^ 24 % 256, n / 2 ^ 16 % 256, n / 2 ^ 8 % 256, n % 256]

/-- Big-endian decoding of (the first four bytes of) a byte list
(Go `binary.BigEndian.Uint32`); callers establish that four bytes exist. -/
def readU32 (b : Bytes) : Nat :=
  match b with
  | b0 :: b1 :: b2 :: b3 :: _ => ((b0 * 256 + b1) * 256 + b2) * 256 + b3
  | _ => 0

/-- `n` bytes of `data` starting at `offset` (Go `data[offset : offset+n]`,
after the surrounding code has checked the bounds). -/
def bytesAt (data : Bytes) (offset n : Nat) : Bytes := (data.drop offset).take n

/-- The u32 stored at `offset` (Go `binary.BigEndian.Uint32 (data[offset:offset+4])`). -/
def u32at (data : Bytes) (offset : Nat) : Nat := readU32 (data.drop offset)

/-- `data[offset : offset+n]` with Go's runtime bounds check made explicit:
`none` models the Go slice-bounds panic. -/
def sliceChk (data : Bytes) (offset n : Nat) : Option Bytes :=
  if offset + n ≤ data.length then some (bytesAt data offset n) else none

/-- Digit-string parsing used by `parseInt64`: all bytes must be ASCII
digits and there must be at least one. -/
def parseDigits (b : Bytes) : Option Nat :=
  if b ≠ [] ∧ b.all (fun c => 48 ≤ c ∧ c ≤ 57) then
    some (b.foldl (fun a c => a * 10 + (c - 48)) 0)
  else none

/-- Go `strconv.ParseInt(s, 10, 64)`: optional sign, decimal digits, and
the 64-bit range check (`-2^63 ≤ v ≤ 2^63 - 1`). -/
def parseInt64 (b : Bytes) : Option Int :=
  match b with
  | 45 :: rest =>
      (parseDigits rest).bind fun n =>
        if n ≤ 2 ^ 63 then some (-(n : Int)) else none
  | 43 :: rest =>
      (parseDigits rest).bind fun n =>
        if n ≤ 2 ^ 63 - 1 then some (n : Int) else none
  | _ =>
      (parseDigits b).bind fun n =>
        if n ≤ 2 ^ 63 - 1 then some (n : Int) else none

/-- Two's-complement wrap-around of Go `int64` arithmetic. -/
def int64wrap (x : Int) : Int := (x + 2 ^ 63) % 2 ^ 64 - 2 ^ 63

/-! ## Protocol constants (`types.go`) -/

def PROTOCOL_VERSION : Nat := 0x01

def CMD_SET : Nat := 0x01
def CMD_GET : Nat := 0x02
def CMD_DEL : Nat := 0x03
def CMD_EXISTS : Nat := 0x04
def CMD_EXPIRE : Nat := 0x05
def CMD_TTL : Nat := 0x06
def CMD_MGET : Nat := 0x07
def CMD_MSET : Nat := 0x08
def CMD_PIPELINE : Nat := 0x09
def CMD_LPUSH : Nat := 0x10
def CMD_RPUSH : Nat := 0x11
def CMD_LPOP : Nat := 0x12
def CMD_RPOP : Nat := 0x13
def CMD_LLEN : Nat := 0x14
def CMD_LINDEX : Nat := 0x15
def CMD_LRANGE : Nat := 0x16
def CMD_SADD : Nat := 0x20
def CMD_SREM : Nat := 0x21
def CMD_SMEMBERS : Nat := 0x22
def CMD_SCARD : Nat := 0x23
def CMD_SISMEMBER : Nat := 0x24
def CMD_HSET : Nat := 0x30
def CMD_HGET : Nat := 0x31
def CMD_HDEL : Nat := 0x32
def CMD_HGETALL : Nat := 0x33
def CMD_HLEN : Nat := 0x34
def CMD_HEXISTS : Nat := 0x35
def CMD_INCR : Nat := 0x40
def CMD_DECR : Nat := 0x41
def CMD_GETSET : Nat := 0x42
def CMD_KEYS : Nat := 0x43
def CMD_SCAN : Nat := 0x44

def RESP_OK : Nat := 0x00
def RESP_ERROR : Nat := 0x01
def RESP_NOT_FOUND : Nat := 0x02

def TYPE_STRING : Nat := 0x01
def TYPE_LIST : Nat := 0x02
def TYPE_SET : Nat := 0x03
def TYPE_HASH : Nat := 0x04

/-! ## Data model (`types.go`) -/

/-- The polymorphic value slot of a `CacheItem`.  The Go code stores the
container behind `any` and tags it with `DataType`; the tag is always set
consistently with the stored variant, so the slot is a sum type here.
A `List` is the element sequence of the doubly-linked list (head first),
a `Set` the membership list of the `map[string]struct{}`, a `Hash` the
field/value association list of the `map[string][]byte`. -/
inductive Value where
  | str (b : Bytes)
  | list (xs : List Bytes)
  | set (ms : List Bytes)
  | hash (fs : List (Bytes × Bytes))
deriving DecidableEq

/-- A stored cache item (`CacheItem` in `types.go`). -/
structure CacheItem where
  value : Value
  expiresAt : Int
  createdAt : Int
deriving DecidableEq

/-- The `DataType` tag of an item, as the Go constants. -/
def CacheItem.dataType (it : CacheItem) : Nat :=
  match it.value with
  | .str _ => TYPE_STRING
  | .list _ => TYPE_LIST
  | .set _ => TYPE_SET
  | .hash _ => TYPE_HASH

/-- `item.ExpiresAt > 0 && item.ExpiresAt <= now`, the lazy-expiration test. -/
def CacheItem.expired (it : CacheItem) (now : Int) : Bool :=
  decide (0 < it.expiresAt ∧ it.expiresAt ≤ now)

/-- Association-list lookup (the `sync.Map.Load` / Go map read). -/
def lookupA {α : Type} : List (Bytes × α) → Bytes → Option α
  | [], _ => none
  | (k', v) :: t, k => if k' = k then some v else lookupA t k

/-- Association-list insert-or-replace (the `sync.Map.Store` / Go map write). -/
def storeA {α : Type} : List (Bytes × α) → Bytes → α → List (Bytes × α)
  | [], k, v => [(k, v)]
  | (k', v') :: t, k, v => if k' = k then (k, v) :: t else (k', v') :: storeA t k v

/-- Association-list removal (the `sync.Map.Delete` / Go map `delete`). -/
def deleteA {α : Type} : List (Bytes × α) → Bytes → List (Bytes × α)
  | [], _ => []
  | (k', v) :: t, k => if k' = k then deleteA t k else (k', v) :: deleteA t k

/-- The shared server state: the keyspace (`storage`) and the TTL index
(`ttlIndex`) of `GoFastServer`. -/
structure ServerState where
  storage : List (Bytes × CacheItem)
  ttlIndex : List (Bytes × Int)
deriving DecidableEq

def ServerState.load (s : ServerState) (k : Bytes) : Option CacheItem :=
  lookupA s.storage k

def ServerState.store (s : ServerState) (k : Bytes) (it : CacheItem) : ServerState :=
  ⟨storeA s.storage k it, s.ttlIndex⟩

/-- Delete `k` from the keyspace and from the TTL index: the pair of
deletions every lazy-expiration site performs
(`storage.Delete(key); delete(ttlIndex, key)`). -/
def ServerState.expireDel (s : ServerState) (k : Bytes) : ServerState :=
  ⟨deleteA s.storage k, deleteA s.ttlIndex k⟩

def ServerState.ttlSet (s : ServerState) (k : Bytes) (d : Int) : ServerState :=
  ⟨s.storage, storeA s.ttlIndex k d⟩

def emptyState : ServerState := ⟨[], []⟩

/-! ## Responses (`createResponse` in `protocol.go`) -/

/-- A response before serialization; `createResponse` packs it as
`[status:u8][datalen:u32][data]`. -/
structure Response where
  status : Nat
  data : Bytes
deriving DecidableEq

def createResponse (status : Nat) (data : Bytes) : Response := ⟨status, data⟩

/-- The wire layout `[status][datalen:u32 BE][data]` produced by
`createResponse`; used verbatim inside PIPELINE bodies. -/
def Response.encode (r : Response) : Bytes := r.status :: u32be r.data.length ++ r.data

def WRONGTYPE_MSG : Bytes :=
  ascii "WRONGTYPE Operation against a key holding the wrong kind of value"

def ERR_NOT_INT_MSG : Bytes := ascii "ERR value is not an integer or out of range"

/-! ## Typed containers (`List`, `Set`, `Hash` methods) -/

/-- `List.LeftPush` / `List.RightPush`: the new element sequence. Both
return the new length, which here is the length of the result. -/
def listPush (xs : List Bytes) (v : Bytes) (isLeft : Bool) : List Bytes :=
  if isLeft then v :: xs else xs ++ [v]

/-- `List.LeftPop` / `List.RightPop`: popped value (with presence flag)
and the remaining sequence. -/
def listPop (xs : List Bytes) (isLeft : Bool) : Option Bytes × List Bytes :=
  if isLeft then
    match xs with
    | [] => (none, [])
    | v :: rest => (some v, rest)
  else
    match xs.getLast? with
    | none => (none, [])
    | some v => (some v, xs.dropLast)

/-- `List.Index`: `O(n)` positional access, out of range (including any
negative index) returns absence. -/
def listIndex (xs : List Bytes) (index : Int) : Option Bytes :=
  if 0 ≤ index ∧ index < xs.length then xs.get? index.toNat else none

/-- `List.Range`: clamp `start` up to 0 and `end` down to `length - 1`,
empty when `start > end`, endpoints inclusive. -/
def listRange (xs : List Bytes) (start end_ : Int) : List Bytes :=
  let start := if start < 0 then 0 else start
  let end_ := if (xs.length : Int) ≤ end_ then (xs.length : Int) - 1 else end_
  if start > end_ then []
  else (xs.drop start.toNat).take (end_ - start + 1).toNat

/-- `Set.Add`: the new membership list, and whether the member was new. -/
def setAdd (ms : List Bytes) (m : Bytes) : List Bytes × Bool :=
  if m ∈ ms then (ms, false) else (ms ++ [m], true)

/-- `Set.Remove`: the new membership list, and whether the member was present. -/
def setRemove (ms : List Bytes) (m : Bytes) : List Bytes × Bool :=
  if m ∈ ms then (ms.filter (fun x => decide (x ≠ m)), true) else (ms, false)

/-- `Hash.Set`: the new field map, and whether the field was newly created. -/
def hashSet (fs : List (Bytes × Bytes)) (f v : Bytes) : List (Bytes × Bytes) × Bool :=
  (storeA fs f v, (lookupA fs f).isNone)

/-- `Hash.Del`: the new field map, and whether the field was present. -/
def hashDel (fs : List (Bytes × Bytes)) (f : Bytes) : List (Bytes × Bytes) × Bool :=
  (deleteA fs f, (lookupA fs f).isSome)

/-! ## Response-body encoders (the encoding helpers file) -/

/-- `encodeArray`: `[count:4][len1:4][val1][len2:4][val2]...` -/
def encodeArray (values : List Bytes) : Bytes :=
  u32be values.length ++ (values.map (fun v => u32be v.length ++ v)).flatten

/-- `encodeHashMap`: `[count:4][field1len:4][field1][val1len:4][val1]...` -/
def encodeHashMap (fields : List (Bytes × Bytes)) : Bytes :=
  u32be fields.length ++
    (fields.map (fun p => u32be p.1.length ++ p.1 ++ u32be p.2.length ++ p.2)).flatten

/-- `encodeMGetResponse`: `[count:4][val1len:4][val1]...`, a nil value is
encoded as length `0xFFFFFFFF` with no bytes. -/
def encodeMGetResponse (values : List (Option Bytes)) : Bytes :=
  u32be values.length ++
    (values.map (fun v =>
      match v with
      | none => u32be 0xFFFFFFFF
      | some b => u32be b.length ++ b)).flatten

/-- `encodePipelineResponse`: `[count:4][resp1][resp2]...` over the
already-serialized inner responses. -/
def encodePipelineResponse (responses : List Bytes) : Bytes :=
  u32be responses.length ++ responses.flatten

/-- `encodeScanResponse`: `[cursor:4][count:4][key1len:4][key1]...` -/
def encodeScanResponse (cursor : Nat) (keys : List Bytes) : Bytes :=
  u32be cursor ++ u32be keys.length ++ (keys.map (fun k => u32be k.length ++ k)).flatten

/-! ## Scalar command handlers (`processCommand` branches in `protocol.go`) -/

/-- The `CMD_SET` branch: store a STRING item; when `ttl > 0` also set the
deadline and the TTL index entry.  No type check and, with `ttl = 0`, no
removal of a pre-existing TTL index entry. -/
def cmdSet (s : ServerState) (key value : Bytes) (ttl : Nat) (now : Int) :
    Response × ServerState :=
  if 0 < ttl then
    let item : CacheItem := ⟨.str value, now + ttl, now⟩
    (createResponse RESP_OK [], (s.ttlSet key (now + ttl)).store key item)
  else
    (createResponse RESP_OK [], s.store key ⟨.str value, 0, now⟩)

/-- The `CMD_GET` branch: lazy-expire, then type check, then the value. -/
def cmdGet (s : ServerState) (key : Bytes) (now : Int) : Response × ServerState :=
  match s.load key with
  | none => (createResponse RESP_NOT_FOUND [], s)
  | some item =>
    if item.expired now then
      (createResponse RESP_NOT_FOUND [], s.expireDel key)
    else
      match item.value with
      | .str b => (createResponse RESP_OK b, s)
      | _ => (createResponse RESP_ERROR WRONGTYPE_MSG, s)

/-- The `CMD_DEL` branch (`LoadAndDelete`): no expiration check. -/
def cmdDel (s : ServerState) (key : Bytes) : Response × ServerState :=
  match s.load key with
  | some _ => (createResponse RESP_OK (ascii "1"), s.expireDel key)
  | none => (createResponse RESP_OK (ascii "0"), s)

/-- The `CMD_EXISTS` branch: lazy-expire, then "1"/"0"; no type check. -/
def cmdExists (s : ServerState) (key : Bytes) (now : Int) : Response × ServerState :=
  match s.load key with
  | none => (createResponse RESP_OK (ascii "0"), s)
  | some item =>
    if item.expired now then
      (createResponse RESP_OK (ascii "0"), s.expireDel key)
    else
      (createResponse RESP_OK (ascii "1"), s)

/-- The `CMD_EXPIRE` branch.  Note: the source performs no lazy-expiration
check here — an item that is already past its deadline but still in the
keyspace is given the new deadline and the reply is "1". -/
def cmdExpire (s : ServerState) (key : Bytes) (ttl : Nat) (now : Int) :
    Response × ServerState :=
  match s.load key with
  | none => (createResponse RESP_OK (ascii "0"), s)
  | some item =>
    if 0 < ttl then
      (createResponse RESP_OK (ascii "1"),
        ⟨storeA s.storage key { item with expiresAt := now + ttl },
          storeA s.ttlIndex key (now + ttl)⟩)
    else
      (createResponse RESP_OK (ascii "1"),
        ⟨storeA s.storage key { item with expiresAt := 0 },
          deleteA s.ttlIndex key⟩)

/-- The `CMD_TTL` branch: "-2" missing, "-1" no deadline, remaining
seconds otherwise; evict and report "-2" when the remainder is ≤ 0. -/
def cmdTtl (s : ServerState) (key : Bytes) (now : Int) : Response × ServerState :=
  match s.load key with
  | none => (createResponse RESP_OK (ascii "-2"), s)
  | some item =>
    if item.expiresAt = 0 then
      (createResponse RESP_OK (ascii "-1"), s)
    else
      let ttl := item.expiresAt - now
      if ttl ≤ 0 then
        (createResponse RESP_OK (ascii "-2"), s.expireDel key)
      else
        (createResponse RESP_OK (asciiOfInt ttl), s)

/-! ## INCR / DECR / GETSET handlers -/

/-- `handleIncr`.  A missing key counts as 0.  An expired key is evicted
and counts as 0, but the final "preserve TTL if it existed" step still
copies the old (already past) deadline onto the freshly stored item,
because it only tests `existing.ExpiresAt > 0`. -/
def handleIncr (s : ServerState) (key : Bytes) (now : Int) : Response × ServerState :=
  match s.load key with
  | none =>
    let newStr := asciiOfInt (int64wrap (0 + 1))
    (createResponse RESP_OK newStr, s.store key ⟨.str newStr, 0, now⟩)
  | some item =>
    if item.expired now then
      let newStr := asciiOfInt (int64wrap (0 + 1))
      ((s.expireDel key).store key
        ⟨.str newStr, if 0 < item.expiresAt then item.expiresAt else 0, now⟩
        |> fun s' => (createResponse RESP_OK newStr, s'))
    else
      match item.value with
      | .str b =>
        match parseInt64 b with
        | none => (createResponse RESP_ERROR ERR_NOT_INT_MSG, s)
        | some cur =>
          let newStr := asciiOfInt (int64wrap (cur + 1))
          (createResponse RESP_OK newStr,
            s.store key
              ⟨.str newStr, if 0 < item.expiresAt then item.expiresAt else 0, now⟩)
      | _ => (createResponse RESP_ERROR WRONGTYPE_MSG, s)

/-- `handleDecr`, symmetric to `handleIncr`. -/
def handleDecr (s : ServerState) (key : Bytes) (now : Int) : Response × ServerState :=
  match s.load key with
  | none =>
    let newStr := asciiOfInt (int64wrap (0 - 1))
    (createResponse RESP_OK newStr, s.store key ⟨.str newStr, 0, now⟩)
  | some item =>
    if item.expired now then
      let newStr := asciiOfInt (int64wrap (0 - 1))
      ((s.expireDel key).store key
        ⟨.str newStr, if 0 < item.expiresAt then item.expiresAt else 0, now⟩
        |> fun s' => (createResponse RESP_OK newStr, s'))
    else
      match item.value with
      | .str b =>
        match parseInt64 b with
        | none => (createResponse RESP_ERROR ERR_NOT_INT_MSG, s)
        | some cur =>
          let newStr := asciiOfInt (int64wrap (cur - 1))
          (createResponse RESP_OK newStr,
            s.store key
              ⟨.str newStr, if 0 < item.expiresAt then item.expiresAt else 0, now⟩)
      | _ => (createResponse RESP_ERROR WRONGTYPE_MSG, s)

/-- `handleGetSet`: returns the old STRING value (NOT_FOUND when absent or
expired), stores the new value, preserving an existing deadline. -/
def handleGetSet (s : ServerState) (key newValue : Bytes) (now : Int) :
    Response × ServerState :=
  match s.load key with
  | none =>
    (createResponse RESP_NOT_FOUND [], s.store key ⟨.str newValue, 0, now⟩)
  | some item =>
    if item.expired now then
      (createResponse RESP_NOT_FOUND [],
        (s.expireDel key).store key ⟨.str newValue, 0, now⟩)
    else
      match item.value with
      | .str old =>
        (createResponse RESP_OK old,
          s.store key ⟨.str newValue, item.expiresAt, now⟩)
      | _ => (createResponse RESP_ERROR WRONGTYPE_MSG, s)

/-! ## List handlers -/

/-- `handleListPush`: lazy-expire, create a LIST on demand, wrong type is
an error, otherwise push and reply with the new length.  On the existing
non-expired list the Go code mutates the container behind the stored
pointer: only the value slot changes. -/
def handleListPush (s : ServerState) (key value : Bytes) (isLeft : Bool) (now : Int) :
    Response × ServerState :=
  match s.load key with
  | some item =>
    if item.expired now then
      let xs := listPush [] value isLeft
      (createResponse RESP_OK (asciiOfNat xs.length),
        (s.expireDel key).store key ⟨.list xs, 0, now⟩)
    else
      match item.value with
      | .list xs =>
        let xs' := listPush xs value isLeft
        (createResponse RESP_OK (asciiOfNat xs'.length),
          s.store key { item with value := .list xs' })
      | _ => (createResponse RESP_ERROR WRONGTYPE_MSG, s)
  | none =>
    let xs := listPush [] value isLeft
    (createResponse RESP_OK (asciiOfNat xs.length),
      s.store key ⟨.list xs, 0, now⟩)

/-- `handleListPop`: lazy-expire, type check, pop; when the list has
become empty the key is removed from keyspace and TTL index. -/
def handleListPop (s : ServerState) (key : Bytes) (isLeft : Bool) (now : Int) :
    Response × ServerState :=
  match s.load key with
  | none => (createResponse RESP_NOT_FOUND [], s)
  | some item =>
    if item.expired now then
      (createResponse RESP_NOT_FOUND [], s.expireDel key)
    else
      match item.value with
      | .list xs =>
        match listPop xs isLeft with
        | (none, _) => (createResponse RESP_NOT_FOUND [], s)
        | (some v, rest) =>
          if rest.length = 0 then
            (createResponse RESP_OK v, s.expireDel key)
          else
            (createResponse RESP_OK v, s.store key { item with value := .list rest })
      | _ => (createResponse RESP_ERROR WRONGTYPE_MSG, s)

/-- `handleListLen`: "0" when absent or expired; wrong type is an error. -/
def handleListLen (s : ServerState) (key : Bytes) (now : Int) : Response × ServerState :=
  match s.load key with
  | none => (createResponse RESP_OK (ascii "0"), s)
  | some item =>
    if item.expired now then
      (createResponse RESP_OK (ascii "0"), s.expireDel key)
    else
      match item.value with
      | .list xs => (createResponse RESP_OK (asciiOfNat xs.length), s)
      | _ => (createResponse RESP_ERROR WRONGTYPE_MSG, s)

/-- `handleListIndex`: NOT_FOUND when absent, expired or out of range. -/
def handleListIndex (s : ServerState) (key : Bytes) (index : Int) (now : Int) :
    Response × ServerState :=
  match s.load key with
  | none => (createResponse RESP_NOT_FOUND [], s)
  | some item =>
    if item.expired now then
      (createResponse RESP_NOT_FOUND [], s.expireDel key)
    else
      match item.value with
      | .list xs =>
        match listIndex xs index with
        | none => (createResponse RESP_NOT_FOUND [], s)
        | some v => (createResponse RESP_OK v, s)
      | _ => (createResponse RESP_ERROR WRONGTYPE_MSG, s)

/-- `handleListRange`: empty array for a missing or expired key. -/
def handleListRange (s : ServerState) (key : Bytes) (start end_ : Int) (now : Int) :
    Response × ServerState :=
  match s.load key with
  | none => (createResponse RESP_OK (encodeArray []), s)
  | some item =>
    if item.expired now then
      (createResponse RESP_OK (encodeArray []), s.expireDel key)
    else
      match item.value with
      | .list xs => (createResponse RESP_OK (encodeArray (listRange xs start end_)), s)
      | _ => (createResponse RESP_ERROR WRONGTYPE_MSG, s)

/-! ## Set handlers -/

/-- `handleSetAdd`: lazy-expire, create a SET on demand, "1"/"0" for
newly-inserted / already-present. -/
def handleSetAdd (s : ServerState) (key member : Bytes) (now : Int) :
    Response × ServerState :=
  match s.load key with
  | some item =>
    if item.expired now then
      let r := setAdd [] member
      (createResponse RESP_OK (if r.2 then ascii "1" else ascii "0"),
        (s.expireDel key).store key ⟨.set r.1, 0, now⟩)
    else
      match item.value with
      | .set ms =>
        let r := setAdd ms member
        (createResponse RESP_OK (if r.2 then ascii "1" else ascii "0"),
          s.store key { item with value := .set r.1 })
      | _ => (createResponse RESP_ERROR WRONGTYPE_MSG, s)
  | none =>
    let r := setAdd [] member
    (createResponse RESP_OK (if r.2 then ascii "1" else ascii "0"),
      s.store key ⟨.set r.1, 0, now⟩)

/-- `handleSetRem`: lazy-expire, type check, remove; when the set has
become empty the key is removed from keyspace and TTL index. -/
def handleSetRem (s : ServerState) (key member : Bytes) (now : Int) :
    Response × ServerState :=
  match s.load key with
  | none => (createResponse RESP_OK (ascii "0"), s)
  | some item =>
    if item.expired now then
      (createResponse RESP_OK (ascii "0"), s.expireDel key)
    else
      match item.value with
      | .set ms =>
        let r := setRemove ms member
        let s' :=
          if r.1.length = 0 then s.expireDel key
          else s.store key { item with value := .set r.1 }
        (createResponse RESP_OK (if r.2 then ascii "1" else ascii "0"), s')
      | _ => (createResponse RESP_ERROR WRONGTYPE_MSG, s)

/-- `handleSetMembers`: empty array when absent or expired. -/
def handleSetMembers (s : ServerState) (key : Bytes) (now : Int) :
    Response × ServerState :=
  match s.load key with
  | none => (createResponse RESP_OK (encodeArray []), s)
  | some item =>
    if item.expired now then
      (createResponse RESP_OK (encodeArray []), s.expireDel key)
    else
      match item.value with
      | .set ms => (createResponse RESP_OK (encodeArray ms), s)
      | _ => (createResponse RESP_ERROR WRONGTYPE_MSG, s)

/-- `handleSetCard`: "0" when absent or expired. -/
def handleSetCard (s : ServerState) (key : Bytes) (now : Int) : Response × ServerState :=
  match s.load key with
  | none => (createResponse RESP_OK (ascii "0"), s)
  | some item =>
    if item.expired now then
      (createResponse RESP_OK (ascii "0"), s.expireDel key)
    else
      match item.value with
      | .set ms => (createResponse RESP_OK (asciiOfNat ms.length), s)
      | _ => (createResponse RESP_ERROR WRONGTYPE_MSG, s)

/-- `handleSetIsMember`: "1"/"0" membership; "0" when absent or expired. -/
def handleSetIsMember (s : ServerState) (key member : Bytes) (now : Int) :
    Response × ServerState :=
  match s.load key with
  | none => (createResponse RESP_OK (ascii "0"), s)
  | some item =>
    if item.expired now then
      (createResponse RESP_OK (ascii "0"), s.expireDel key)
    else
      match item.value with
      | .set ms =>
        (createResponse RESP_OK (if member ∈ ms then ascii "1" else ascii "0"), s)
      | _ => (createResponse RESP_ERROR WRONGTYPE_MSG, s)

/-! ## Hash handlers -/

/-- `handleHashSet`: the dispatcher hands the handler a packed
`[fieldlen:4][field][value]` buffer; malformed packing is an error,
otherwise lazy-expire, create a HASH on demand, set the field. -/
def handleHashSet (s : ServerState) (key data : Bytes) (now : Int) :
    Response × ServerState :=
  if data.length < 4 then (createResponse RESP_ERROR (ascii "Invalid HSET data"), s)
  else
    let fieldLen := readU32 data
    if data.length < 4 + fieldLen then
      (createResponse RESP_ERROR (ascii "Invalid HSET data"), s)
    else
      let field := bytesAt data 4 fieldLen
      let value := data.drop (4 + fieldLen)
      match s.load key with
      | some item =>
        if item.expired now then
          let r := hashSet [] field value
          (createResponse RESP_OK (if r.2 then ascii "1" else ascii "0"),
            (s.expireDel key).store key ⟨.hash r.1, 0, now⟩)
        else
          match item.value with
          | .hash fs =>
            let r := hashSet fs field value
            (createResponse RESP_OK (if r.2 then ascii "1" else ascii "0"),
              s.store key { item with value := .hash r.1 })
          | _ => (createResponse RESP_ERROR WRONGTYPE_MSG, s)
      | none =>
        let r := hashSet [] field value
        (createResponse RESP_OK (if r.2 then ascii "1" else ascii "0"),
          s.store key ⟨.hash r.1, 0, now⟩)

/-- `handleHashGet`: NOT_FOUND when the key or the field is absent. -/
def handleHashGet (s : ServerState) (key field : Bytes) (now : Int) :
    Response × ServerState :=
  match s.load key with
  | none => (createResponse RESP_NOT_FOUND [], s)
  | some item =>
    if item.expired now then
      (createResponse RESP_NOT_FOUND [], s.expireDel key)
    else
      match item.value with
      | .hash fs =>
        match lookupA fs field with
        | none => (createResponse RESP_NOT_FOUND [], s)
        | some v => (createResponse RESP_OK v, s)
      | _ => (createResponse RESP_ERROR WRONGTYPE_MSG, s)

/-- `handleHashDel`: "1"/"0" for removed/not-present; when the hash has
become empty the key is removed from keyspace and TTL index. -/
def handleHashDel (s : ServerState) (key field : Bytes) (now : Int) :
    Response × ServerState :=
  match s.load key with
  | none => (createResponse RESP_OK (ascii "0"), s)
  | some item =>
    if item.expired now then
      (createResponse RESP_OK (ascii "0"), s.expireDel key)
    else
      match item.value with
      | .hash fs =>
        let r := hashDel fs field
        let s' :=
          if r.1.length = 0 then s.expireDel key
          else s.store key { item with value := .hash r.1 }
        (createResponse RESP_OK (if r.2 then ascii "1" else ascii "0"), s')
      | _ => (createResponse RESP_ERROR WRONGTYPE_MSG, s)

/-- `handleHashGetAll`: empty map when absent or expired. -/
def handleHashGetAll (s : ServerState) (key : Bytes) (now : Int) :
    Response × ServerState :=
  match s.load key with
  | none => (createResponse RESP_OK (encodeHashMap []), s)
  | some item =>
    if item.expired now then
      (createResponse RESP_OK (encodeHashMap []), s.expireDel key)
    else
      match item.value with
      | .hash fs => (createResponse RESP_OK (encodeHashMap fs), s)
      | _ => (createResponse RESP_ERROR WRONGTYPE_MSG, s)

/-- `handleHashLen`: "0" when absent or expired. -/
def handleHashLen (s : ServerState) (key : Bytes) (now : Int) : Response × ServerState :=
  match s.load key with
  | none => (createResponse RESP_OK (ascii "0"), s)
  | some item =>
    if item.expired now then
      (createResponse RESP_OK (ascii "0"), s.expireDel key)
    else
      match item.value with
      | .hash fs => (createResponse RESP_OK (asciiOfNat fs.length), s)
      | _ => (createResponse RESP_ERROR WRONGTYPE_MSG, s)

/-- `handleHashExists`: "1"/"0" field presence; "0" when absent or expired. -/
def handleHashExists (s : ServerState) (key field : Bytes) (now : Int) :
    Response × ServerState :=
  match s.load key with
  | none => (createResponse RESP_OK (ascii "0"), s)
  | some item =>
    if item.expired now then
      (createResponse RESP_OK (ascii "0"), s.expireDel key)
    else
      match item.value with
      | .hash fs =>
        (createResponse RESP_OK
          (if (lookupA fs field).isSome then ascii "1" else ascii "0"), s)
      | _ => (createResponse RESP_ERROR WRONGTYPE_MSG, s)

/-! ## Pattern matching, KEYS and SCAN -/

/-- The backtracking loop of `wildcardMatch`, fuelled.  The state is
`(i, j, starIdx, matchIdx)` exactly as in the source; the fuel passed by
`wildcardMatch` exceeds the maximal number of iterations, so the
out-of-fuel branch is never taken for those inputs. -/
def wildcardLoop (pattern str : Bytes) : Nat → Nat → Nat → Int → Nat → Bool
  | 0, _, _, _, _ => false
  | fuel + 1, i, j, starIdx, matchIdx =>
    if i < str.length then
      if j < pattern.length ∧
          (pattern.getD j 0 = 63 ∨ pattern.getD j 0 = str.getD i 0) then
        wildcardLoop pattern str fuel (i + 1) (j + 1) starIdx matchIdx
      else if j < pattern.length ∧ pattern.getD j 0 = 42 then
        wildcardLoop pattern str fuel i (j + 1) (Int.ofNat j) i
      else if starIdx ≠ -1 then
        wildcardLoop pattern str fuel (matchIdx + 1) (starIdx.toNat + 1) starIdx
          (matchIdx + 1)
      else false
    else
      ((pattern.drop j).dropWhile (fun c => decide (c = 42))).isEmpty

/-- `wildcardMatch`: glob matching with `*` and `?` (byte 42 and 63). -/
def wildcardMatch (pattern str : Bytes) : Bool :=
  wildcardLoop pattern str ((str.length + 1) * (pattern.length + 2) + 1) 0 0 (-1) 0

/-- `matchPattern`: an empty pattern or `"*"` matches everything. -/
def matchPattern (pattern key : Bytes) : Bool :=
  if pattern = [] ∨ pattern = [42] then true else wildcardMatch pattern key

/-- `handleKeys`: every non-expired key whose name matches the pattern, in
keyspace iteration order.  The source fires asynchronous deletions for the
expired keys it passes; those run after the reply and are not part of the
state this handler returns. -/
def handleKeys (s : ServerState) (pattern : Bytes) (now : Int) :
    Response × ServerState :=
  let matching :=
    ((s.storage.filter (fun p => !p.2.expired now)).map Prod.fst).filter
      (fun k => matchPattern pattern k)
  (createResponse RESP_OK (encodeArray matching), s)

/-- Byte-wise lexicographic order on byte strings: the order of Go
`sort.Strings`. -/
def lexLe : Bytes → Bytes → Bool
  | [], _ => true
  | _ :: _, [] => false
  | a :: as, b :: bs => if a < b then true else if b < a then false else lexLe as bs

def insertSorted (x : Bytes) : List Bytes → List Bytes
  | [] => [x]
  | y :: ys => if lexLe x y then x :: y :: ys else y :: insertSorted x ys

/-- Ascending byte-lexicographic sort (`sort.Strings`). -/
def sortBytes : List Bytes → List Bytes
  | [] => []
  | x :: xs => insertSorted x (sortBytes xs)

/-- The snapshot `handleScan` collects: every non-expired key. -/
def scanLiveKeys (s : ServerState) (now : Int) : List Bytes :=
  (s.storage.filter (fun p => !p.2.expired now)).map Prod.fst

/-- `handleScan`: sort the snapshot, slice `[cursor, cursor+count)`
(`count` is 10 at every call site), filter the slice by the pattern.
`nextCursor` is 0 when the cursor is at or past the end of the snapshot or
when `cursor+count` overshoots it, and `cursor+count` otherwise — also
when `cursor+count` lands exactly on the end.  As in `handleKeys`, expired
keys trigger asynchronous deletions that are not part of the returned
state. -/
def handleScan (s : ServerState) (cursor : Nat) (pattern : Bytes) (count : Nat)
    (now : Int) : Response × ServerState :=
  let keys := sortBytes (scanLiveKeys s now)
  if keys.length ≤ cursor then
    (createResponse RESP_OK (encodeScanResponse 0 []), s)
  else
    let endIndex := cursor + count
    let nextCursor := if keys.length < endIndex then 0 else endIndex
    let endIndex := if keys.length < endIndex then keys.length else endIndex
    let matching :=
      ((keys.drop cursor).take (endIndex - cursor)).filter
        (fun k => matchPattern pattern k)
    (createResponse RESP_OK (encodeScanResponse nextCursor matching), s)

/-! ## MGET / MSET batch engines -/

/-- The key-parsing loop of `handleMGet` over
`[count:4][key1len:4][key1]...`; both bounds checks of the source are
performed before each key is cut out. -/
def mgetParseKeys (data : Bytes) : Nat → Nat → Except Bytes (List Bytes)
  | 0, _ => .ok []
  | n + 1, offset =>
    if data.length < offset + 4 then
      .error (ascii "Invalid MGET data - insufficient data")
    else
      let keyLen := u32at data offset
      if data.length < offset + 4 + keyLen then
        .error (ascii "Invalid MGET data - key too long")
      else
        (mgetParseKeys data n (offset + 4 + keyLen)).map
          (fun ks => bytesAt data (offset + 4) keyLen :: ks)

/-- The fetch loop of `handleMGet`: per key, lazy-expire; a STRING yields
its value, everything else (missing, expired, wrong type) yields nil. -/
def mgetFetch : ServerState → Int → List Bytes → List (Option Bytes) × ServerState
  | s, _, [] => ([], s)
  | s, now, k :: ks =>
    match s.load k with
    | none =>
      let r := mgetFetch s now ks
      (none :: r.1, r.2)
    | some item =>
      if item.expired now then
        let r := mgetFetch (s.expireDel k) now ks
        (none :: r.1, r.2)
      else
        match item.value with
        | .str b =>
          let r := mgetFetch s now ks
          (some b :: r.1, r.2)
        | _ =>
          let r := mgetFetch s now ks
          (none :: r.1, r.2)

/-- `handleMGet`. -/
def handleMGet (s : ServerState) (data : Bytes) (now : Int) : Response × ServerState :=
  if data.length < 4 then (createResponse RESP_ERROR (ascii "Invalid MGET data"), s)
  else
    let count := readU32 data
    if count = 0 then (createResponse RESP_OK (encodeMGetResponse []), s)
    else
      match mgetParseKeys data count 4 with
      | .error e => (createResponse RESP_ERROR e, s)
      | .ok keys =>
        let r := mgetFetch s now keys
        (createResponse RESP_OK (encodeMGetResponse r.1), r.2)

/-- The parse-and-store loop of `handleMSet` over
`[count:4][key1len:4][key1][val1len:4][val1][ttl1:4]...`.  Pairs are
applied as they are parsed, so on a mid-stream parse error the pairs
already applied persist in the returned state. -/
def msetLoop (data : Bytes) (now : Int) :
    Nat → ServerState → Nat → Nat → Response × ServerState
  | 0, s, _, successCount => (createResponse RESP_OK (asciiOfNat successCount), s)
  | n + 1, s, offset, successCount =>
    if data.length < offset + 4 then
      (createResponse RESP_ERROR (ascii "Invalid MSET data - insufficient key length"), s)
    else
      let keyLen := u32at data offset
      if data.length < offset + 4 + keyLen then
        (createResponse RESP_ERROR (ascii "Invalid MSET data - key too long"), s)
      else
        let key := bytesAt data (offset + 4) keyLen
        let o1 := offset + 4 + keyLen
        if data.length < o1 + 4 then
          (createResponse RESP_ERROR (ascii "Invalid MSET data - insufficient value length"), s)
        else
          let valueLen := u32at data o1
          if data.length < o1 + 4 + valueLen then
            (createResponse RESP_ERROR (ascii "Invalid MSET data - value too long"), s)
          else
            let value := bytesAt data (o1 + 4) valueLen
            let o2 := o1 + 4 + valueLen
            if data.length < o2 + 4 then
              (createResponse RESP_ERROR (ascii "Invalid MSET data - insufficient TTL"), s)
            else
              let ttl := u32at data o2
              let s' :=
                if 0 < ttl then
                  (s.ttlSet key (now + ttl)).store key ⟨.str value, now + ttl, now⟩
                else s.store key ⟨.str value, 0, now⟩
              msetLoop data now n s' (o2 + 4) (successCount + 1)

/-- `handleMSet`: reply is the ASCII count of pairs applied. -/
def handleMSet (s : ServerState) (data : Bytes) (now : Int) : Response × ServerState :=
  if data.length < 4 then (createResponse RESP_ERROR (ascii "Invalid MSET data"), s)
  else
    let count := readU32 data
    if count = 0 then (createResponse RESP_OK (ascii "0"), s)
    else msetLoop data now count s 4 0

/-! ## Messages and the pipeline engine -/

/-- A parsed message (`Message` in `types.go`); `ttl` doubles as the
LINDEX index, the LRANGE start and the SCAN cursor, exactly as in the
source. -/
structure Message where
  length : Nat
  version : Nat
  command : Nat
  key : Bytes
  value : Bytes
  ttl : Nat
deriving DecidableEq

/-- Outcome of `parsePipelineMessage`: success and parse error carry the
offset at which the pipeline loop resumes; `panicked` models a Go runtime
slice-bounds panic (the source slices `data[offset : offset+n]` without
checking `n` against the remaining payload). -/
inductive PipeParse where
  | ok (m : Message) (next : Nat)
  | perr (emsg : Bytes) (next : Nat)
  | panicked
deriving DecidableEq

/-- A checked u32 read, `none` on a slice-bounds panic. -/
def u32chk (data : Bytes) (offset : Nat) : Option Nat :=
  (sliceChk data offset 4).map readU32

/-- Collapse the bounds-check threading of a pipeline parse case: an
out-of-bounds slice is the Go panic. -/
def orPanic : Option PipeParse → PipeParse
  | none => .panicked
  | some r => r

/-- `parsePipelineMessage data offset`: parse one embedded frame
`[msglen:4][version:1][command:1][payload]` at `offset`.  The message
header and the frame length are validated; the per-command payload reads
are not validated against the frame and can panic. -/
def parsePipelineMessage (data : Bytes) (offset : Nat) : PipeParse :=
  if data.length < offset + 6 then
    .perr (ascii "insufficient data for message header") offset
  else
    let msgLen := u32at data offset
    let o := offset + 4
    if data.length < o + msgLen then
      .perr (ascii "message length exceeds available data") o
    else
      let version := data.getD o 0
      let command := data.getD (o + 1) 0
      let o := o + 2
      let remaining : Int := (msgLen : Int) - 2
      let endOffset : Nat := offset + 4 + msgLen
      if command = CMD_SET then
        if remaining < 12 then .perr (ascii "invalid SET message in pipeline") endOffset
        else orPanic do
          let keyLen ← u32chk data o
          let key ← sliceChk data (o + 4) keyLen
          let ttl ← u32chk data (o + 4 + keyLen)
          let valueLen ← u32chk data (o + 8 + keyLen)
          let value ← sliceChk data (o + 12 + keyLen) valueLen
          pure (.ok ⟨msgLen, version, command, key, value, ttl⟩ endOffset)
      else if command = CMD_EXPIRE then
        if remaining < 8 then .perr (ascii "invalid EXPIRE message in pipeline") endOffset
        else orPanic do
          let keyLen ← u32chk data o
          let key ← sliceChk data (o + 4) keyLen
          let ttl ← u32chk data (o + 4 + keyLen)
          pure (.ok ⟨msgLen, version, command, key, [], ttl⟩ endOffset)
      else if command = CMD_LPUSH ∨ command = CMD_RPUSH ∨ command = CMD_SADD ∨
          command = CMD_GETSET then
        if remaining < 8 then
          .perr (ascii "invalid list/set operation in pipeline") endOffset
        else orPanic do
          let keyLen ← u32chk data o
          let key ← sliceChk data (o + 4) keyLen
          let valueLen ← u32chk data (o + 4 + keyLen)
          let value ← sliceChk data (o + 8 + keyLen) valueLen
          pure (.ok ⟨msgLen, version, command, key, value, 0⟩ endOffset)
      else if command = CMD_SCAN then
        if remaining < 8 then .perr (ascii "invalid SCAN message in pipeline") endOffset
        else orPanic do
          let cursor ← u32chk data o
          let patternLen ← u32chk data (o + 4)
          let pattern ← sliceChk data (o + 8) patternLen
          pure (.ok ⟨msgLen, version, command, [], pattern, cursor⟩ endOffset)
      else if command = CMD_HSET then
        if remaining < 12 then .perr (ascii "invalid HSET message in pipeline") endOffset
        else orPanic do
          let keyLen ← u32chk data o
          let key ← sliceChk data (o + 4) keyLen
          let fieldLen ← u32chk data (o + 4 + keyLen)
          let field ← sliceChk data (o + 8 + keyLen) fieldLen
          let valueLen ← u32chk data (o + 8 + keyLen + fieldLen)
          let value ← sliceChk data (o + 12 + keyLen + fieldLen) valueLen
          pure (.ok ⟨msgLen, version, command, key,
            u32be fieldLen ++ field ++ value, 0⟩ endOffset)
      else if command = CMD_HGET ∨ command = CMD_HDEL ∨ command = CMD_HEXISTS then
        if remaining < 8 then
          .perr (ascii "invalid hash field operation in pipeline") endOffset
        else orPanic do
          let keyLen ← u32chk data o
          let key ← sliceChk data (o + 4) keyLen
          let fieldLen ← u32chk data (o + 4 + keyLen)
          let field ← sliceChk data (o + 8 + keyLen) fieldLen
          pure (.ok ⟨msgLen, version, command, key, field, 0⟩ endOffset)
      else if command = CMD_LINDEX then
        if remaining < 8 then .perr (ascii "invalid LINDEX message in pipeline") endOffset
        else orPanic do
          let keyLen ← u32chk data o
          let key ← sliceChk data (o + 4) keyLen
          let index ← u32chk data (o + 4 + keyLen)
          pure (.ok ⟨msgLen, version, command, key, [], index⟩ endOffset)
      else if command = CMD_LRANGE then
        if remaining < 12 then .perr (ascii "invalid LRANGE message in pipeline") endOffset
        else orPanic do
          let keyLen ← u32chk data o
          let key ← sliceChk data (o + 4) keyLen
          let start ← u32chk data (o + 4 + keyLen)
          let endB ← sliceChk data (o + 8 + keyLen) 4
          pure (.ok ⟨msgLen, version, command, key, endB, start⟩ endOffset)
      else if command = CMD_LPOP ∨ command = CMD_RPOP ∨ command = CMD_SREM ∨
          command = CMD_SISMEMBER then
        orPanic do
          let keyLen ← u32chk data o
          let key ← sliceChk data (o + 4) keyLen
          let remainingAfterKey : Int := remaining - 4 - keyLen
          if 0 < remainingAfterKey ∧ (command = CMD_SREM ∨ command = CMD_SISMEMBER) then do
            let valueLen ← u32chk data (o + 4 + keyLen)
            let value ← sliceChk data (o + 8 + keyLen) valueLen
            pure (.ok ⟨msgLen, version, command, key, value, 0⟩ endOffset)
          else
            pure (.ok ⟨msgLen, version, command, key, [], 0⟩ endOffset)
      else if command = CMD_GET ∨ command = CMD_DEL ∨ command = CMD_EXISTS ∨
          command = CMD_TTL ∨ command = CMD_LLEN ∨ command = CMD_SMEMBERS ∨
          command = CMD_SCARD ∨ command = CMD_HGETALL ∨ command = CMD_HLEN ∨
          command = CMD_INCR ∨ command = CMD_DECR ∨ command = CMD_KEYS then
        if remaining < 4 then
          .perr (ascii "invalid key-only message in pipeline") endOffset
        else orPanic do
          let keyLen ← u32chk data o
          let key ← sliceChk data (o + 4) keyLen
          pure (.ok ⟨msgLen, version, command, key, [], 0⟩ endOffset)
      else
        .perr (ascii "unsupported command in pipeline: " ++ asciiOfNat command) endOffset

/-- `processIndividualCommand`: the single-command dispatcher used by the
pipeline engine (same per-command semantics as `processCommand`, without
the MGET/MSET/PIPELINE branches). -/
def processIndividualCommand (s : ServerState) (m : Message) (now : Int) :
    Response × ServerState :=
  if m.command = CMD_SET then cmdSet s m.key m.value m.ttl now
  else if m.command = CMD_GET then cmdGet s m.key now
  else if m.command = CMD_DEL then cmdDel s m.key
  else if m.command = CMD_EXISTS then cmdExists s m.key now
  else if m.command = CMD_EXPIRE then cmdExpire s m.key m.ttl now
  else if m.command = CMD_TTL then cmdTtl s m.key now
  else if m.command = CMD_LPUSH then handleListPush s m.key m.value true now
  else if m.command = CMD_RPUSH then handleListPush s m.key m.value false now
  else if m.command = CMD_LPOP then handleListPop s m.key true now
  else if m.command = CMD_RPOP then handleListPop s m.key false now
  else if m.command = CMD_LLEN then handleListLen s m.key now
  else if m.command = CMD_SADD then handleSetAdd s m.key m.value now
  else if m.command = CMD_SREM then handleSetRem s m.key m.value now
  else if m.command = CMD_SMEMBERS then handleSetMembers s m.key now
  else if m.command = CMD_SCARD then handleSetCard s m.key now
  else if m.command = CMD_SISMEMBER then handleSetIsMember s m.key m.value now
  else if m.command = CMD_HSET then handleHashSet s m.key m.value now
  else if m.command = CMD_HGET then handleHashGet s m.key m.value now
  else if m.command = CMD_HDEL then handleHashDel s m.key m.value now
  else if m.command = CMD_HGETALL then handleHashGetAll s m.key now
  else if m.command = CMD_HLEN then handleHashLen s m.key now
  else if m.command = CMD_HEXISTS then handleHashExists s m.key m.value now
  else if m.command = CMD_LINDEX then handleListIndex s m.key m.ttl now
  else if m.command = CMD_LRANGE then handleListRange s m.key m.ttl (readU32 m.value) now
  else if m.command = CMD_INCR then handleIncr s m.key now
  else if m.command = CMD_DECR then handleDecr s m.key now
  else if m.command = CMD_GETSET then handleGetSet s m.key m.value now
  else if m.command = CMD_KEYS then handleKeys s m.value now
  else if m.command = CMD_SCAN then handleScan s m.ttl m.value 10 now
  else (createResponse RESP_ERROR (ascii "Unknown command in pipeline"), s)

/-- The `for i := range count` loop of `handlePipeline`: one slot per
declared command, accumulating inner responses in order; `none` is a Go
panic escaping from `parsePipelineMessage`. -/
def pipelineLoop (data : Bytes) (now : Int) :
    Nat → ServerState → Nat → Option (List Response × ServerState)
  | 0, s, _ => some ([], s)
  | n + 1, s, offset =>
    if data.length ≤ offset then
      (pipelineLoop data now n s offset).map
        (fun r => (createResponse RESP_ERROR (ascii "Incomplete pipeline command") :: r.1, r.2))
    else
      match parsePipelineMessage data offset with
      | .panicked => none
      | .perr emsg next =>
        (pipelineLoop data now n s next).map
          (fun r =>
            (createResponse RESP_ERROR (ascii "Pipeline parse error: " ++ emsg) :: r.1,
              r.2))
      | .ok m next =>
        let pr := processIndividualCommand s m now
        (pipelineLoop data now n pr.2 next).map (fun r => (pr.1 :: r.1, r.2))

/-- `handlePipeline`: the outer response is OK and embeds each serialized
inner response, in order, after the count.  `none` models the Go runtime
panic a malformed embedded frame can cause. -/
def handlePipeline (s : ServerState) (data : Bytes) (now : Int) :
    Option (Response × ServerState) :=
  if data.length < 4 then
    some (createResponse RESP_ERROR (ascii "Invalid PIPELINE data"), s)
  else
    let count := readU32 data
    if count = 0 then some (createResponse RESP_OK (encodePipelineResponse []), s)
    else
      (pipelineLoop data now count s 4).map
        (fun r =>
          (createResponse RESP_OK (encodePipelineResponse (r.1.map Response.encode)),
            r.2))

/-! ## The top-level frame reader (`readMessage` in `protocol.go`) -/

/-- `io.ReadFull` with the error checked: fail when the stream has fewer
than `n` bytes; otherwise the bytes read and the rest of the stream. -/
def readFullChk (stream : Bytes) (n : Nat) : Option (Bytes × Bytes) :=
  if n ≤ stream.length then some (stream.take n, stream.drop n) else none

/-- `io.ReadFull` with the returned error ignored, as in every payload
read of `readMessage`: the bytes that could be read and the rest.  (At
end of stream the Go buffer keeps its length and stale contents; only the
actually-read prefix is modelled, which coincides whenever the stream is
long enough.) -/
def readLax (stream : Bytes) (n : Nat) : Bytes × Bytes :=
  (stream.take n, stream.drop n)

/-- `readMessage`: read one frame
`[length:u32][version:u8][command:u8][payload]` from the stream.  `none`
is a read error (the connection-close path): short header, or unsupported
version, or a `remaining` minimum-length check failing.  The payload
reads ignore read errors and are not bounded by the declared frame
length, so a declared `keylen`/`valuelen`/`fieldlen` larger than the
frame's remainder silently consumes bytes of the following frames. -/
def readMessage (stream : Bytes) : Option (Message × Bytes) :=
  match readFullChk stream 4 with
  | none => none
  | some (lenB, s1) =>
    let length := readU32 lenB
    match readFullChk s1 1 with
    | none => none
    | some (verB, s2) =>
      match readFullChk s2 1 with
      | none => none
      | some (cmdB, s3) =>
        let version := verB.getD 0 0
        let command := cmdB.getD 0 0
        if version ≠ PROTOCOL_VERSION then none
        else
          let remaining : Int := (length : Int) - 2
          if command = CMD_SET then
            if remaining < 12 then none
            else
              let r1 := readLax s3 4
              let keyLen := readU32 r1.1
              let r2 := readLax r1.2 keyLen
              let r3 := readLax r2.2 4
              let ttl := readU32 r3.1
              let r4 := readLax r3.2 4
              let valueLen := readU32 r4.1
              let r5 := readLax r4.2 valueLen
              some (⟨length, version, command, r2.1, r5.1, ttl⟩, r5.2)
          else if command = CMD_GET ∨ command = CMD_DEL ∨ command = CMD_EXISTS ∨
              command = CMD_TTL ∨ command = CMD_LLEN ∨ command = CMD_SMEMBERS ∨
              command = CMD_SCARD ∨ command = CMD_HGETALL ∨ command = CMD_HLEN then
            if remaining < 4 then none
            else
              let r1 := readLax s3 4
              let keyLen := readU32 r1.1
              let r2 := readLax r1.2 keyLen
              some (⟨length, version, command, r2.1, [], 0⟩, r2.2)
          else if command = CMD_EXPIRE then
            if remaining < 8 then none
            else
              let r1 := readLax s3 4
              let keyLen := readU32 r1.1
              let r2 := readLax r1.2 keyLen
              let r3 := readLax r2.2 4
              some (⟨length, version, command, r2.1, [], readU32 r3.1⟩, r3.2)
          else if command = CMD_LPUSH ∨ command = CMD_RPUSH ∨ command = CMD_SADD then
            if remaining < 8 then none
            else
              let r1 := readLax s3 4
              let keyLen := readU32 r1.1
              let r2 := readLax r1.2 keyLen
              let r3 := readLax r2.2 4
              let valueLen := readU32 r3.1
              let r4 := readLax r3.2 valueLen
              some (⟨length, version, command, r2.1, r4.1, 0⟩, r4.2)
          else if command = CMD_LPOP ∨ command = CMD_RPOP ∨ command = CMD_SREM ∨
              command = CMD_SISMEMBER then
            let r1 := readLax s3 4
            let keyLen := readU32 r1.1
            let r2 := readLax r1.2 keyLen
            let remainingAfterKey : Int := remaining - 4 - keyLen
            if 0 < remainingAfterKey ∧ (command = CMD_SREM ∨ command = CMD_SISMEMBER) then
              let r3 := readLax r2.2 4
              let valueLen := readU32 r3.1
              let r4 := readLax r3.2 valueLen
              some (⟨length, version, command, r2.1, r4.1, 0⟩, r4.2)
            else
              some (⟨length, version, command, r2.1, [], 0⟩, r2.2)
          else if command = CMD_LINDEX then
            if remaining < 8 then none
            else
              let r1 := readLax s3 4
              let keyLen := readU32 r1.1
              let r2 := readLax r1.2 keyLen
              let r3 := readLax r2.2 4
              some (⟨length, version, command, r2.1, [], readU32 r3.1⟩, r3.2)
          else if command = CMD_LRANGE then
            if remaining < 12 then none
            else
              let r1 := readLax s3 4
              let keyLen := readU32 r1.1
              let r2 := readLax r1.2 keyLen
              let r3 := readLax r2.2 4
              let r4 := readLax r3.2 4
              some (⟨length, version, command, r2.1, r4.1, readU32 r3.1⟩, r4.2)
          else if command = CMD_HSET ∨ command = CMD_HGET ∨ command = CMD_HDEL ∨
              command = CMD_HEXISTS then
            if remaining < 8 then none
            else
              let r1 := readLax s3 4
              let keyLen := readU32 r1.1
              let r2 := readLax r1.2 keyLen
              let r3 := readLax r2.2 4
              let fieldLen := readU32 r3.1
              let r4 := readLax r3.2 fieldLen
              let remainingAfterField : Int := remaining - 8 - keyLen - fieldLen
              if 0 < remainingAfterField ∧ command = CMD_HSET then
                let r5 := readLax r4.2 4
                let valueLen := readU32 r5.1
                let r6 := readLax r5.2 valueLen
                some (⟨length, version, command, r2.1,
                  u32be fieldLen ++ r4.1 ++ r6.1, 0⟩, r6.2)
              else
                some (⟨length, version, command, r2.1, r4.1, 0⟩, r4.2)
          else if command = CMD_MGET ∨ command = CMD_MSET ∨ command = CMD_PIPELINE then
            if remaining < 4 then none
            else
              let r1 := readLax s3 remaining.toNat
              some (⟨length, version, command, [], r1.1, 0⟩, r1.2)
          else if command = CMD_INCR ∨ command = CMD_DECR then
            if remaining < 4 then none
            else
              let r1 := readLax s3 4
              let keyLen := readU32 r1.1
              let r2 := readLax r1.2 keyLen
              some (⟨length, version, command, r2.1, [], 0⟩, r2.2)
          else if command = CMD_GETSET then
            if remaining < 8 then none
            else
              let r1 := readLax s3 4
              let keyLen := readU32 r1.1
              let r2 := readLax r1.2 keyLen
              let r3 := readLax r2.2 4
              let valueLen := readU32 r3.1
              let r4 := readLax r3.2 valueLen
              some (⟨length, version, command, r2.1, r4.1, 0⟩, r4.2)
          else if command = CMD_KEYS then
            if remaining < 4 then none
            else
              let r1 := readLax s3 4
              let patternLen := readU32 r1.1
              let r2 := readLax r1.2 patternLen
              some (⟨length, version, command, [], r2.1, 0⟩, r2.2)
          else if command = CMD_SCAN then
            if remaining < 8 then none
            else
              let r1 := readLax s3 4
              let cursor := readU32 r1.1
              let r2 := readLax r1.2 4
              let patternLen := readU32 r2.1
              let r3 := readLax r2.2 patternLen
              some (⟨length, version, command, [], r3.1, cursor⟩, r3.2)
          else
            some (⟨length, version, command, [], [], 0⟩, s3)

/-! ## The expiration sweeper (`cleanupExpiredKeys`) -/

/-- One pass of the background sweeper: collect every TTL-index entry
whose deadline is ≤ now and delete those keys from the keyspace and the
index. -/
def sweep (s : ServerState) (now : Int) : ServerState :=
  let expiredKeys := (s.ttlIndex.filter (fun p => decide (p.2 ≤ now))).map Prod.fst
  ⟨expiredKeys.foldl deleteA s.storage, expiredKeys.foldl deleteA s.ttlIndex⟩

/-! ## Wire-format helpers for concrete frames -/

/-- The bytes of an embedded SET frame
`[msglen][version][CMD_SET][keylen][key][ttl][valuelen][value]`. -/
def setFrame (key value : Bytes) (ttl : Nat) : Bytes :=
  u32be (14 + key.length + value.length) ++ [PROTOCOL_VERSION, CMD_SET] ++
    u32be key.length ++ key ++ u32be ttl ++ u32be value.length ++ value

/-- The bytes of an embedded GET frame `[msglen][version][CMD_GET][keylen][key]`. -/
def getFrame (key : Bytes) : Bytes :=
  u32be (6 + key.length) ++ [PROTOCOL_VERSION, CMD_GET] ++ u32be key.length ++ key

/-- An embedded frame with command byte `cmd` and raw payload. -/
def rawFrame (cmd : Nat) (payload : Bytes) : Bytes :=
  u32be (payload.length + 2) ++ [PROTOCOL_VERSION, cmd] ++ payload

/-- The MGET request body `[count][keylen key]*` for a key list. -/
def mgetRequest (keys : List Bytes) : Bytes :=
  u32be keys.length ++ (keys.map (fun k => u32be k.length ++ k)).flatten

/-- The MSET request body `[count][keylen key valuelen value ttl]*` for a
list of pairs, all with TTL 0. -/
def msetRequest (pairs : List (Bytes × Bytes)) : Bytes :=
  u32be pairs.length ++
    (pairs.map (fun p => u32be p.1.length ++ p.1 ++ u32be p.2.length ++ p.2 ++ u32be 0)).flatten

end GoFast

namespace GoFast

/-! ## Association-list lemmas -/

theorem lookupA_storeA_self {α : Type} (l : List (Bytes × α)) (k : Bytes) (v : α) :
    lookupA (storeA l k v) k = some v := by
  induction l with
  | nil => simp [storeA, lookupA]
  | cons p t ih =>
    obtain ⟨k', v'⟩ := p
    by_cases h : k' = k
    · simp [storeA, lookupA, h]
    · simp [storeA, lookupA, h, ih]

theorem lookupA_storeA_ne {α : Type} (l : List (Bytes × α)) (k k' : Bytes) (v : α)
    (h : k ≠ k') : lookupA (storeA l k v) k' = lookupA l k' := by
  induction l with
  | nil => simp [storeA, lookupA, h]
  | cons p t ih =>
    obtain ⟨k0, v0⟩ := p
    by_cases h0 : k0 = k
    · subst h0; simp [storeA, lookupA, h]
    · simp [storeA, lookupA, h0, ih]

theorem lookupA_deleteA_self {α : Type} (l : List (Bytes × α)) (k : Bytes) :
    lookupA (deleteA l k) k = none := by
  induction l with
  | nil => simp [deleteA, lookupA]
  | cons p t ih =>
    obtain ⟨k', v'⟩ := p
    by_cases h : k' = k
    · simp [deleteA, h, ih]
    · simp [deleteA, lookupA, h, ih]

theorem lookupA_deleteA_ne {α : Type} (l : List (Bytes × α)) (k k' : Bytes)
    (h : k ≠ k') : lookupA (deleteA l k) k' = lookupA l k' := by
  induction l with
  | nil => simp [deleteA, lookupA]
  | cons p t ih =>
    obtain ⟨k0, v0⟩ := p
    by_cases h0 : k0 = k
    · subst h0; rw [deleteA, if_pos rfl, ih, lookupA, if_neg h]
    · simp [deleteA, lookupA, h0, ih]

/-! ## Byte-level lemmas -/

theorem length_u32be (n : Nat) : (u32be n).length = 4 := rfl

theorem readU32_u32be (n : Nat) (rest : Bytes) (h : n < 2 ^ 32) :
    readU32 (u32be n ++ rest) = n := by
  simp only [u32be, List.cons_append, List.nil_append, readU32]
  omega

theorem drop4_u32be (n : Nat) (rest : Bytes) : (u32be n ++ rest).drop 4 = rest := rfl

/-! # Claim C1 -/

/-- **C1, counterexample.**  The claim states that SET, DEL and EXISTS
against a key of the wrong type return an ERROR whose data begins with
"WRONGTYPE" and leave the stored value unchanged.  On the reachable state
where key `"k"` holds a one-element LIST (created by LPUSH), SET replies
OK (and overwrites), DEL replies OK "1" (and deletes), and EXISTS replies
OK "1" — none of them an ERROR. -/
theorem c1_set_wrong_type_is_ok :
    (cmdSet (handleListPush emptyState (ascii "k") (ascii "x") true 0).2
      (ascii "k") (ascii "v") 0 5).1 = createResponse RESP_OK [] ∧
    (cmdDel (handleListPush emptyState (ascii "k") (ascii "x") true 0).2
      (ascii "k")).1 = createResponse RESP_OK (ascii "1") ∧
    (cmdExists (handleListPush emptyState (ascii "k") (ascii "x") true 0).2
      (ascii "k") 5).1 = createResponse RESP_OK (ascii "1") ∧
    RESP_OK ≠ RESP_ERROR := by decide

/-- **C1, amended.**  Of the six listed commands only GET, INCR and DECR
type-check: against an existing, non-expired key of a non-STRING type
they return status ERROR with data beginning "WRONGTYPE" and leave the
state unchanged; SET always replies OK (overwriting the item with a
STRING), DEL replies "1" (removing it), and EXISTS replies "1",
regardless of the stored type. -/
theorem c1_wrongtype_amended (s : ServerState) (k v : Bytes) (ttl : Nat) (now : Int)
    (it : CacheItem) (hload : s.load k = some it)
    (hexp : it.expired now = false) (hty : it.dataType ≠ TYPE_STRING) :
    cmdGet s k now = (createResponse RESP_ERROR WRONGTYPE_MSG, s) ∧
    handleIncr s k now = (createResponse RESP_ERROR WRONGTYPE_MSG, s) ∧
    handleDecr s k now = (createResponse RESP_ERROR WRONGTYPE_MSG, s) ∧
    WRONGTYPE_MSG.take 9 = ascii "WRONGTYPE" ∧
    (cmdSet s k v ttl now).1 = createResponse RESP_OK [] ∧
    (cmdDel s k).1 = createResponse RESP_OK (ascii "1") ∧
    (cmdExists s k now).1 = createResponse RESP_OK (ascii "1") := by
  refine ⟨?_, ?_, ?_, by decide, ?_, ?_, ?_⟩
  · cases hv : it.value with
    | str b => exact absurd (by simp [CacheItem.dataType, hv, TYPE_STRING]) hty
    | list xs => simp [cmdGet, hload, hexp, hv]
    | set ms => simp [cmdGet, hload, hexp, hv]
    | hash fs => simp [cmdGet, hload, hexp, hv]
  · cases hv : it.value with
    | str b => exact absurd (by simp [CacheItem.dataType, hv, TYPE_STRING]) hty
    | list xs => simp [handleIncr, hload, hexp, hv]
    | set ms => simp [handleIncr, hload, hexp, hv]
    | hash fs => simp [handleIncr, hload, hexp, hv]
  · cases hv : it.value with
    | str b => exact absurd (by simp [CacheItem.dataType, hv, TYPE_STRING]) hty
    | list xs => simp [handleDecr, hload, hexp, hv]
    | set ms => simp [handleDecr, hload, hexp, hv]
    | hash fs => simp [handleDecr, hload, hexp, hv]
  · unfold cmdSet; split <;> rfl
  · simp [cmdDel, hload]
  · simp [cmdExists, hload, hexp]

/-- **C1, witness** for the amended theorem, on the state where `"k"`
holds a LIST. -/
theorem c1_wrongtype_amended_witness :
    ((⟨[(ascii "k", ⟨.list [ascii "x"], 0, 0⟩)], []⟩ : ServerState).load (ascii "k") =
        some ⟨.list [ascii "x"], 0, 0⟩ ∧
      CacheItem.expired ⟨.list [ascii "x"], 0, 0⟩ 5 = false ∧
      CacheItem.dataType ⟨.list [ascii "x"], 0, 0⟩ ≠ TYPE_STRING) ∧
    (cmdGet ⟨[(ascii "k", ⟨.list [ascii "x"], 0, 0⟩)], []⟩ (ascii "k") 5 =
        (createResponse RESP_ERROR WRONGTYPE_MSG,
          ⟨[(ascii "k", ⟨.list [ascii "x"], 0, 0⟩)], []⟩) ∧
      handleIncr ⟨[(ascii "k", ⟨.list [ascii "x"], 0, 0⟩)], []⟩ (ascii "k") 5 =
        (createResponse RESP_ERROR WRONGTYPE_MSG,
          ⟨[(ascii "k", ⟨.list [ascii "x"], 0, 0⟩)], []⟩) ∧
      handleDecr ⟨[(ascii "k", ⟨.list [ascii "x"], 0, 0⟩)], []⟩ (ascii "k") 5 =
        (createResponse RESP_ERROR WRONGTYPE_MSG,
          ⟨[(ascii "k", ⟨.list [ascii "x"], 0, 0⟩)], []⟩) ∧
      WRONGTYPE_MSG.take 9 = ascii "WRONGTYPE" ∧
      (cmdSet ⟨[(ascii "k", ⟨.list [ascii "x"], 0, 0⟩)], []⟩ (ascii "k") (ascii "v") 0 5).1 =
        createResponse RESP_OK [] ∧
      (cmdDel ⟨[(ascii "k", ⟨.list [ascii "x"], 0, 0⟩)], []⟩ (ascii "k")).1 =
        createResponse RESP_OK (ascii "1") ∧
      (cmdExists ⟨[(ascii "k", ⟨.list [ascii "x"], 0, 0⟩)], []⟩ (ascii "k") 5).1 =
        createResponse RESP_OK (ascii "1")) :=
  ⟨⟨by decide, by decide, by decide⟩,
    c1_wrongtype_amended ⟨[(ascii "k", ⟨.list [ascii "x"], 0, 0⟩)], []⟩ (ascii "k")
      (ascii "v") 0 5 ⟨.list [ascii "x"], 0, 0⟩ (by decide) (by decide) (by decide)⟩

/-! # Claim C2 -/

/-- **C2.**  The claim (with the spec) requires every command observing a
key to lazy-expire it first, so that EXPIRE on an already-expired key
replies "0".  In the source, `CMD_EXPIRE` performs no expiration check:
on the reachable state where `"k"` was SET with TTL 5 at time 0 and is
observed at time 10 (expired, `expires_at = 5 ≤ 10`), EXPIRE with TTL 100
replies "1", installs the new deadline 110, and a subsequent GET returns
the resurrected value. -/
theorem c2_expire_skips_lazy_expiration :
    (cmdSet emptyState (ascii "k") (ascii "v") 5 0).2.load (ascii "k") =
      some ⟨.str (ascii "v"), 5, 0⟩ ∧
    (cmdExpire (cmdSet emptyState (ascii "k") (ascii "v") 5 0).2
      (ascii "k") 100 10).1 = createResponse RESP_OK (ascii "1") ∧
    ((cmdExpire (cmdSet emptyState (ascii "k") (ascii "v") 5 0).2
      (ascii "k") 100 10).2.load (ascii "k")).map CacheItem.expiresAt = some 110 ∧
    (cmdGet (cmdExpire (cmdSet emptyState (ascii "k") (ascii "v") 5 0).2
      (ascii "k") 100 10).2 (ascii "k") 10).1 =
      createResponse RESP_OK (ascii "v") ∧
    ascii "1" ≠ ascii "0" := by decide

/-! # Claim C3 -/

/-- **C3.**  The claim states the TTL-index/keyspace agreement invariant
holds in every reachable state, in particular when SET overwrites, with
TTL 0, a key that had a positive expiration.  Executing exactly that
two-command sequence (`SET k ttl=5` then `SET k ttl=0`, both at time 100)
from the empty state leaves the item with `expires_at = 0` while the TTL
index still maps the key to deadline 105 — and the sweeper at time 106
then deletes the key even though it has no expiration. -/
theorem c3_ttl_index_desync :
    lookupA (cmdSet (cmdSet emptyState (ascii "k") (ascii "a") 5 100).2
      (ascii "k") (ascii "b") 0 100).2.ttlIndex (ascii "k") = some 105 ∧
    ((cmdSet (cmdSet emptyState (ascii "k") (ascii "a") 5 100).2
      (ascii "k") (ascii "b") 0 100).2.load (ascii "k")).map CacheItem.expiresAt =
      some 0 ∧
    (sweep (cmdSet (cmdSet emptyState (ascii "k") (ascii "a") 5 100).2
      (ascii "k") (ascii "b") 0 100).2 106).load (ascii "k") = none := by decide

/-! # Claim C4 -/

/-- **C4.**  The claim states declared length fields are validated against
the remaining payload, with a top-level parse error that does not consume
past the frame and a pipeline error slot.  In the source neither happens:
(a) a top-level SET frame declaring `length = 14` (12 payload bytes) but
`keylen = 16` is read without any error, its key taking 8 bytes of the
payload plus 8 bytes belonging to the rest of the stream, and the whole
34-byte stream is consumed even though the frame ends at byte 18;
(b) the same overrun inside a PIPELINE makes `parsePipelineMessage` slice
beyond the buffer — a Go runtime panic (`none`), not an error slot. -/
theorem c4_length_fields_not_validated :
    (readMessage (u32be 14 ++ [1, CMD_SET] ++ u32be 16 ++
        [10, 11, 12, 13, 14, 15, 16, 17] ++
        [20, 21, 22, 23, 24, 25, 26, 27] ++ u32be 0 ++ u32be 0)).map
        (fun r => (r.1.key, r.2)) =
      some ([10, 11, 12, 13, 14, 15, 16, 17, 20, 21, 22, 23, 24, 25, 26, 27], []) ∧
    parsePipelineMessage
        (u32be 1 ++ u32be 14 ++ [1, CMD_SET] ++ u32be 100 ++
          [0, 0, 0, 0, 0, 0, 0, 0]) 4 = .panicked ∧
    handlePipeline emptyState
        (u32be 1 ++ u32be 14 ++ [1, CMD_SET] ++ u32be 100 ++
          [0, 0, 0, 0, 0, 0, 0, 0]) 0 = none := by decide

/-! # Claim C5 -/

/-- **C5, counterexample.**  The claim says SCAN "returns next cursor 0
exactly when the returned slice reaches the end of the snapshot".  On a
keyspace of exactly 10 live keys with cursor 0 the returned slice
`[0, 10)` reaches the end of the snapshot, yet the response carries next
cursor 10, not 0. -/
theorem c5_scan_cursor_at_exact_end :
    (handleScan
        ⟨[([48], ⟨.str [118], 0, 0⟩), ([49], ⟨.str [118], 0, 0⟩),
          ([50], ⟨.str [118], 0, 0⟩), ([51], ⟨.str [118], 0, 0⟩),
          ([52], ⟨.str [118], 0, 0⟩), ([53], ⟨.str [118], 0, 0⟩),
          ([54], ⟨.str [118], 0, 0⟩), ([55], ⟨.str [118], 0, 0⟩),
          ([56], ⟨.str [118], 0, 0⟩), ([57], ⟨.str [118], 0, 0⟩)], []⟩
        0 [] 10 5).1.data.take 4 = u32be 10 ∧ u32be 10 ≠ u32be 0 := by decide

/-- **C5, amended.**  SCAN snapshots the non-expired keys, sorts them
byte-lexicographically, and returns the pattern-filtered slice
`[cursor, cursor+10)`.  The next cursor is 0 when `cursor ≥` the snapshot
size (then with an empty key array) and when `cursor + 10` strictly
overshoots the snapshot; when `cursor + 10 ≤` size the next cursor is
`cursor + 10` even if the slice ends exactly at the snapshot end — the
subsequent call then returns cursor 0 and an empty array. -/
theorem c5_scan_amended (s : ServerState) (cursor : Nat) (pattern : Bytes) (now : Int) :
    ((sortBytes (scanLiveKeys s now)).length ≤ cursor →
      handleScan s cursor pattern 10 now =
        (createResponse RESP_OK (encodeScanResponse 0 []), s)) ∧
    (cursor < (sortBytes (scanLiveKeys s now)).length →
      (sortBytes (scanLiveKeys s now)).length < cursor + 10 →
      handleScan s cursor pattern 10 now =
        (createResponse RESP_OK
          (encodeScanResponse 0
            ((((sortBytes (scanLiveKeys s now)).drop cursor).take
                ((sortBytes (scanLiveKeys s now)).length - cursor)).filter
              (fun k => matchPattern pattern k))), s)) ∧
    (cursor + 10 ≤ (sortBytes (scanLiveKeys s now)).length →
      handleScan s cursor pattern 10 now =
        (createResponse RESP_OK
          (encodeScanResponse (cursor + 10)
            ((((sortBytes (scanLiveKeys s now)).drop cursor).take 10).filter
              (fun k => matchPattern pattern k))), s)) := by
  refine ⟨fun h1 => ?_, fun h1 h2 => ?_, fun h1 => ?_⟩
  · simp only [handleScan, if_pos h1]
  · have h3 : ¬ (sortBytes (scanLiveKeys s now)).length ≤ cursor := by omega
    simp only [handleScan, if_neg h3, if_pos h2]
  · have h2 : ¬ (sortBytes (scanLiveKeys s now)).length ≤ cursor := by omega
    have h3 : ¬ (sortBytes (scanLiveKeys s now)).length < cursor + 10 := by omega
    simp only [handleScan, if_neg h2, if_neg h3, Nat.add_sub_cancel_left]

/-- **C5, witness** for the amended theorem: 10 single-byte keys, the
three cursor regimes at cursors 10, 5 and 0. -/
theorem c5_scan_amended_witness :
    ((sortBytes (scanLiveKeys
        ⟨[([48], ⟨.str [118], 0, 0⟩), ([49], ⟨.str [118], 0, 0⟩),
          ([50], ⟨.str [118], 0, 0⟩), ([51], ⟨.str [118], 0, 0⟩),
          ([52], ⟨.str [118], 0, 0⟩), ([53], ⟨.str [118], 0, 0⟩),
          ([54], ⟨.str [118], 0, 0⟩), ([55], ⟨.str [118], 0, 0⟩),
          ([56], ⟨.str [118], 0, 0⟩), ([57], ⟨.str [118], 0, 0⟩)], []⟩ 5)).length ≤ 10 ∧
      5 < (sortBytes (scanLiveKeys
        ⟨[([48], ⟨.str [118], 0, 0⟩), ([49], ⟨.str [118], 0, 0⟩),
          ([50], ⟨.str [118], 0, 0⟩), ([51], ⟨.str [118], 0, 0⟩),
          ([52], ⟨.str [118], 0, 0⟩), ([53], ⟨.str [118], 0, 0⟩),
          ([54], ⟨.str [118], 0, 0⟩), ([55], ⟨.str [118], 0, 0⟩),
          ([56], ⟨.str [118], 0, 0⟩), ([57], ⟨.str [118], 0, 0⟩)], []⟩ 5)).length) ∧
    handleScan
        ⟨[([48], ⟨.str [118], 0, 0⟩), ([49], ⟨.str [118], 0, 0⟩),
          ([50], ⟨.str [118], 0, 0⟩), ([51], ⟨.str [118], 0, 0⟩),
          ([52], ⟨.str [118], 0, 0⟩), ([53], ⟨.str [118], 0, 0⟩),
          ([54], ⟨.str [118], 0, 0⟩), ([55], ⟨.str [118], 0, 0⟩),
          ([56], ⟨.str [118], 0, 0⟩), ([57], ⟨.str [118], 0, 0⟩)], []⟩ 10 [] 10 5 =
      (createResponse RESP_OK (encodeScanResponse 0 []),
        ⟨[([48], ⟨.str [118], 0, 0⟩), ([49], ⟨.str [118], 0, 0⟩),
          ([50], ⟨.str [118], 0, 0⟩), ([51], ⟨.str [118], 0, 0⟩),
          ([52], ⟨.str [118], 0, 0⟩), ([53], ⟨.str [118], 0, 0⟩),
          ([54], ⟨.str [118], 0, 0⟩), ([55], ⟨.str [118], 0, 0⟩),
          ([56], ⟨.str [118], 0, 0⟩), ([57], ⟨.str [118], 0, 0⟩)], []⟩) :=
  ⟨⟨by decide, by decide⟩,
    (c5_scan_amended
      ⟨[([48], ⟨.str [118], 0, 0⟩), ([49], ⟨.str [118], 0, 0⟩),
        ([50], ⟨.str [118], 0, 0⟩), ([51], ⟨.str [118], 0, 0⟩),
        ([52], ⟨.str [118], 0, 0⟩), ([53], ⟨.str [118], 0, 0⟩),
        ([54], ⟨.str [118], 0, 0⟩), ([55], ⟨.str [118], 0, 0⟩),
        ([56], ⟨.str [118], 0, 0⟩), ([57], ⟨.str [118], 0, 0⟩)], []⟩ 10 [] 5).1
      (by decide)⟩

/-! # Claim C8 -/

/-- **C8.**  An operation that leaves a container empty removes the key
from the keyspace and the TTL index before replying: LPOP/RPOP on a
one-element list replies with the element and performs the removal, SREM
of the last member and HDEL of the last field reply "1" and perform the
removal; after removal the key is absent from both maps, so GET replies
NOT_FOUND and EXISTS replies "0"; and LPUSH of `v` onto an absent key
followed by LPOP returns `v` and leaves the key absent. -/
theorem c8_empty_container_removed (s : ServerState) (k v m f fv : Bytes)
    (e c now : Int) :
    (∀ isLeft, s.load k = some ⟨.list [v], e, c⟩ →
      CacheItem.expired ⟨.list [v], e, c⟩ now = false →
      handleListPop s k isLeft now = (createResponse RESP_OK v, s.expireDel k)) ∧
    (s.load k = some ⟨.set [m], e, c⟩ →
      CacheItem.expired ⟨.set [m], e, c⟩ now = false →
      handleSetRem s k m now = (createResponse RESP_OK (ascii "1"), s.expireDel k)) ∧
    (s.load k = some ⟨.hash [(f, fv)], e, c⟩ →
      CacheItem.expired ⟨.hash [(f, fv)], e, c⟩ now = false →
      handleHashDel s k f now = (createResponse RESP_OK (ascii "1"), s.expireDel k)) ∧
    ((s.expireDel k).load k = none ∧ lookupA (s.expireDel k).ttlIndex k = none) ∧
    (∀ t : ServerState, t.load k = none →
      cmdGet t k now = (createResponse RESP_NOT_FOUND [], t) ∧
      cmdExists t k now = (createResponse RESP_OK (ascii "0"), t)) ∧
    (s.load k = none →
      handleListPush s k v true now =
        (createResponse RESP_OK (ascii "1"), s.store k ⟨.list [v], 0, now⟩) ∧
      handleListPop (s.store k ⟨.list [v], 0, now⟩) k true now =
        (createResponse RESP_OK v, (s.store k ⟨.list [v], 0, now⟩).expireDel k) ∧
      ((s.store k ⟨.list [v], 0, now⟩).expireDel k).load k = none) := by
  refine ⟨fun isLeft hload hexp => ?_, fun hload hexp => ?_, fun hload hexp => ?_,
    ⟨?_, ?_⟩, fun t hnone => ⟨?_, ?_⟩, fun hnone => ⟨?_, ?_, ?_⟩⟩
  · cases isLeft <;> simp [handleListPop, hload, hexp, listPop]
  · simp [handleSetRem, hload, hexp, setRemove]
  · simp [handleHashDel, hload, hexp, hashDel, lookupA, deleteA]
  · exact lookupA_deleteA_self s.storage k
  · exact lookupA_deleteA_self s.ttlIndex k
  · simp [cmdGet, hnone]
  · simp [cmdExists, hnone]
  · simp [handleListPush, hnone, ServerState.store, listPush,
      show asciiOfNat 1 = ascii "1" from by decide]
  · have hl : (s.store k ⟨.list [v], 0, now⟩).load k = some ⟨.list [v], 0, now⟩ :=
      lookupA_storeA_self s.storage k _
    simp [handleListPop, hl, CacheItem.expired, listPop]
  · exact lookupA_deleteA_self _ k

/-- **C8, witness**: a keyspace where `"k"` holds the one-element list
`["v"]` (with a live TTL-index entry), plus the LPUSH/LPOP law from the
empty state. -/
theorem c8_empty_container_removed_witness :
    ((⟨[(ascii "k", ⟨.list [ascii "v"], 9, 0⟩)], [(ascii "k", 9)]⟩ : ServerState).load
        (ascii "k") = some ⟨.list [ascii "v"], 9, 0⟩ ∧
      CacheItem.expired ⟨.list [ascii "v"], 9, 0⟩ 5 = false ∧
      (emptyState.load (ascii "x") = none)) ∧
    handleListPop ⟨[(ascii "k", ⟨.list [ascii "v"], 9, 0⟩)], [(ascii "k", 9)]⟩
        (ascii "k") true 5 =
      (createResponse RESP_OK (ascii "v"),
        ServerState.expireDel
          ⟨[(ascii "k", ⟨.list [ascii "v"], 9, 0⟩)], [(ascii "k", 9)]⟩ (ascii "k")) ∧
    handleListPop (emptyState.store (ascii "x") ⟨.list [ascii "v"], 0, 7⟩)
        (ascii "x") true 7 =
      (createResponse RESP_OK (ascii "v"),
        (emptyState.store (ascii "x") ⟨.list [ascii "v"], 0, 7⟩).expireDel (ascii "x")) :=
  ⟨⟨by decide, by decide, by decide⟩,
    (c8_empty_container_removed
      ⟨[(ascii "k", ⟨.list [ascii "v"], 9, 0⟩)], [(ascii "k", 9)]⟩
      (ascii "k") (ascii "v") [] [] [] 9 0 5).1 true (by decide) (by decide),
    ((c8_empty_container_removed emptyState (ascii "x") (ascii "v") [] [] [] 0 0
      7).2.2.2.2.2 (by decide)).2.1⟩

/-! # Claim C9 -/

/-- **C9.**  On an existing, non-expired key of the matching container
type, LPUSH/RPUSH, SADD and HSET only replace the container contents:
the stored item keeps its `expires_at` and `created_at`, and the TTL
index is untouched (for HSET, with the dispatcher's packed
`[fieldlen][field][value]` payload). -/
theorem c9_container_writes_preserve_frame (s : ServerState) (k v f fv : Bytes)
    (now : Int) (it : CacheItem) (hload : s.load k = some it)
    (hexp : it.expired now = false) :
    (∀ xs isLeft, it.value = .list xs →
      handleListPush s k v isLeft now =
        (createResponse RESP_OK (asciiOfNat (listPush xs v isLeft).length),
          s.store k ⟨.list (listPush xs v isLeft), it.expiresAt, it.createdAt⟩) ∧
      (handleListPush s k v isLeft now).2.ttlIndex = s.ttlIndex ∧
      ((handleListPush s k v isLeft now).2.load k).map CacheItem.expiresAt =
        some it.expiresAt ∧
      ((handleListPush s k v isLeft now).2.load k).map CacheItem.createdAt =
        some it.createdAt) ∧
    (∀ ms, it.value = .set ms →
      handleSetAdd s k v now =
        (createResponse RESP_OK (if (setAdd ms v).2 then ascii "1" else ascii "0"),
          s.store k ⟨.set (setAdd ms v).1, it.expiresAt, it.createdAt⟩) ∧
      (handleSetAdd s k v now).2.ttlIndex = s.ttlIndex ∧
      ((handleSetAdd s k v now).2.load k).map CacheItem.expiresAt =
        some it.expiresAt ∧
      ((handleSetAdd s k v now).2.load k).map CacheItem.createdAt =
        some it.createdAt) ∧
    (∀ fs, it.value = .hash fs → f.length < 2 ^ 32 →
      handleHashSet s k (u32be f.length ++ f ++ fv) now =
        (createResponse RESP_OK (if (hashSet fs f fv).2 then ascii "1" else ascii "0"),
          s.store k ⟨.hash (hashSet fs f fv).1, it.expiresAt, it.createdAt⟩) ∧
      (handleHashSet s k (u32be f.length ++ f ++ fv) now).2.ttlIndex = s.ttlIndex ∧
      ((handleHashSet s k (u32be f.length ++ f ++ fv) now).2.load k).map
        CacheItem.expiresAt = some it.expiresAt ∧
      ((handleHashSet s k (u32be f.length ++ f ++ fv) now).2.load k).map
        CacheItem.createdAt = some it.createdAt) := by
  obtain ⟨val, e, c⟩ := it
  refine ⟨fun xs isLeft hv => ?_, fun ms hv => ?_, fun fs hv hf => ?_⟩ <;>
    simp only at hv <;> subst hv
  · have h1 : handleListPush s k v isLeft now =
        (createResponse RESP_OK (asciiOfNat (listPush xs v isLeft).length),
          s.store k ⟨.list (listPush xs v isLeft), e, c⟩) := by
      simp [handleListPush, hload, hexp]
    refine ⟨h1, by rw [h1]; rfl, ?_, ?_⟩ <;>
      rw [h1] <;> simp [ServerState.load, ServerState.store, lookupA_storeA_self]
  · have h1 : handleSetAdd s k v now =
        (createResponse RESP_OK (if (setAdd ms v).2 then ascii "1" else ascii "0"),
          s.store k ⟨.set (setAdd ms v).1, e, c⟩) := by
      simp [handleSetAdd, hload, hexp]
    refine ⟨h1, by rw [h1]; rfl, ?_, ?_⟩ <;>
      rw [h1] <;> simp [ServerState.load, ServerState.store, lookupA_storeA_self]
  · have hdata : (u32be f.length ++ f ++ fv).length = 4 + f.length + fv.length := by
      simp only [List.length_append, length_u32be]
    have hr : readU32 (u32be f.length ++ f ++ fv) = f.length := by
      rw [List.append_assoc]; exact readU32_u32be f.length (f ++ fv) hf
    have hfield : bytesAt (u32be f.length ++ f ++ fv) 4 f.length = f := by
      rw [List.append_assoc, bytesAt, drop4_u32be, List.take_append_of_le_length le_rfl,
        List.take_length]
    have hvalue : (u32be f.length ++ f ++ fv).drop (4 + f.length) = fv := by
      have h2 : (u32be f.length ++ f).length = 4 + f.length := by simp [length_u32be]
      rw [← h2, List.drop_left]
    have h1 : handleHashSet s k (u32be f.length ++ f ++ fv) now =
        (createResponse RESP_OK (if (hashSet fs f fv).2 then ascii "1" else ascii "0"),
          s.store k ⟨.hash (hashSet fs f fv).1, e, c⟩) := by
      simp only [handleHashSet, hr, hdata, hfield, hvalue]
      rw [if_neg (by omega), if_neg (by omega)]
      simp [hload, hexp]
    refine ⟨h1, by rw [h1]; rfl, ?_, ?_⟩ <;>
      rw [h1] <;> simp [ServerState.load, ServerState.store, lookupA_storeA_self]

/-- **C9, witness**: `"k"` holding the list `["a"]` with deadline 9 and a
TTL-index entry, RPUSH of `"b"` at time 5. -/
theorem c9_container_writes_preserve_frame_witness :
    ((⟨[(ascii "k", ⟨.list [ascii "a"], 9, 2⟩)], [(ascii "k", 9)]⟩ : ServerState).load
        (ascii "k") = some ⟨.list [ascii "a"], 9, 2⟩ ∧
      CacheItem.expired ⟨.list [ascii "a"], 9, 2⟩ 5 = false ∧
      Value.list [ascii "a"] = Value.list [ascii "a"]) ∧
    handleListPush ⟨[(ascii "k", ⟨.list [ascii "a"], 9, 2⟩)], [(ascii "k", 9)]⟩
        (ascii "k") (ascii "b") false 5 =
      (createResponse RESP_OK (asciiOfNat (listPush [ascii "a"] (ascii "b") false).length),
        ServerState.store ⟨[(ascii "k", ⟨.list [ascii "a"], 9, 2⟩)], [(ascii "k", 9)]⟩
          (ascii "k") ⟨.list (listPush [ascii "a"] (ascii "b") false), 9, 2⟩) :=
  ⟨⟨by decide, by decide, rfl⟩, by
    exact ((c9_container_writes_preserve_frame
      ⟨[(ascii "k", ⟨.list [ascii "a"], 9, 2⟩)], [(ascii "k", 9)]⟩
      (ascii "k") (ascii "b") [] [] 5 ⟨.list [ascii "a"], 9, 2⟩
      (by decide) (by decide)).1 [ascii "a"] false rfl).1⟩

/-! # Claim C10 -/

/-- **C10.**  INCR and DECR wrap at the signed 64-bit boundary: on a
non-expired key storing "9223372036854775807", INCR replies OK with
"-9223372036854775808" (and stores it, preserving a positive deadline);
DECR is symmetric.  The "ERR value is not an integer or out of range"
response arises exactly when the key holds a non-expired STRING whose
bytes fail `strconv.ParseInt(·, 10, 64)` — never from the increment or
decrement itself. -/
theorem c10_incr_decr_wrap (s : ServerState) (k : Bytes) (now e c : Int) :
    (s.load k = some ⟨.str (ascii "9223372036854775807"), e, c⟩ →
      CacheItem.expired ⟨.str (ascii "9223372036854775807"), e, c⟩ now = false →
      handleIncr s k now =
        (createResponse RESP_OK (ascii "-9223372036854775808"),
          s.store k ⟨.str (ascii "-9223372036854775808"),
            if 0 < e then e else 0, now⟩)) ∧
    (s.load k = some ⟨.str (ascii "-9223372036854775808"), e, c⟩ →
      CacheItem.expired ⟨.str (ascii "-9223372036854775808"), e, c⟩ now = false →
      handleDecr s k now =
        (createResponse RESP_OK (ascii "9223372036854775807"),
          s.store k ⟨.str (ascii "9223372036854775807"),
            if 0 < e then e else 0, now⟩)) ∧
    (∀ t : ServerState,
      ((handleIncr t k now).1 = createResponse RESP_ERROR ERR_NOT_INT_MSG ↔
        ∃ it, t.load k = some it ∧ it.expired now = false ∧
          ∃ b, it.value = .str b ∧ parseInt64 b = none) ∧
      ((handleDecr t k now).1 = createResponse RESP_ERROR ERR_NOT_INT_MSG ↔
        ∃ it, t.load k = some it ∧ it.expired now = false ∧
          ∃ b, it.value = .str b ∧ parseInt64 b = none)) := by
  refine ⟨fun hload hexp => ?_, fun hload hexp => ?_, fun t => ⟨?_, ?_⟩⟩
  · simp only [handleIncr, hload, hexp, Bool.false_eq_true, if_false,
      show parseInt64 (ascii "9223372036854775807") = some 9223372036854775807 from
        by decide]
    norm_num [show asciiOfInt (int64wrap 9223372036854775808) =
      ascii "-9223372036854775808" from by decide]
  · simp only [handleDecr, hload, hexp, Bool.false_eq_true, if_false,
      show parseInt64 (ascii "-9223372036854775808") = some (-9223372036854775808) from
        by decide]
    norm_num [show asciiOfInt (int64wrap (-9223372036854775809)) =
      ascii "9223372036854775807" from by decide]
  · match hl : t.load k with
    | none =>
      simp [handleIncr, hl, createResponse, RESP_OK, RESP_ERROR]
    | some it =>
      by_cases hexp : it.expired now
      · simp [handleIncr, hl, hexp, createResponse, RESP_OK, RESP_ERROR]
      · cases hv : it.value with
        | str b =>
          cases hp : parseInt64 b with
          | none =>
            simp only [handleIncr, hl, hexp, hv, hp, Bool.false_eq_true, if_false]
            simp only [true_iff, iff_true_intro rfl]
            exact ⟨it, rfl, Bool.not_eq_true _ ▸ hexp, b, hv, hp⟩
          | some n =>
            simp [handleIncr, hl, hexp, hv, hp, createResponse, RESP_OK, RESP_ERROR]
        | list xs =>
          simp [handleIncr, hl, hexp, hv, createResponse,
            show WRONGTYPE_MSG ≠ ERR_NOT_INT_MSG from by decide]
        | set ms =>
          simp [handleIncr, hl, hexp, hv, createResponse,
            show WRONGTYPE_MSG ≠ ERR_NOT_INT_MSG from by decide]
        | hash fs =>
          simp [handleIncr, hl, hexp, hv, createResponse,
            show WRONGTYPE_MSG ≠ ERR_NOT_INT_MSG from by decide]
  · match hl : t.load k with
    | none =>
      simp [handleDecr, hl, createResponse, RESP_OK, RESP_ERROR]
    | some it =>
      by_cases hexp : it.expired now
      · simp [handleDecr, hl, hexp, createResponse, RESP_OK, RESP_ERROR]
      · cases hv : it.value with
        | str b =>
          cases hp : parseInt64 b with
          | none =>
            simp only [handleDecr, hl, hexp, hv, hp, Bool.false_eq_true, if_false]
            simp only [true_iff, iff_true_intro rfl]
            exact ⟨it, rfl, Bool.not_eq_true _ ▸ hexp, b, hv, hp⟩
          | some n =>
            simp [handleDecr, hl, hexp, hv, hp, createResponse, RESP_OK, RESP_ERROR]
        | list xs =>
          simp [handleDecr, hl, hexp, hv, createResponse,
            show WRONGTYPE_MSG ≠ ERR_NOT_INT_MSG from by decide]
        | set ms =>
          simp [handleDecr, hl, hexp, hv, createResponse,
            show WRONGTYPE_MSG ≠ ERR_NOT_INT_MSG from by decide]
        | hash fs =>
          simp [handleDecr, hl, hexp, hv, createResponse,
            show WRONGTYPE_MSG ≠ ERR_NOT_INT_MSG from by decide]

/-- **C10, witness**: `"n"` holding "9223372036854775807" with no
deadline, INCR at time 3. -/
theorem c10_incr_decr_wrap_witness :
    ((⟨[(ascii "n", ⟨.str (ascii "9223372036854775807"), 0, 0⟩)], []⟩ : ServerState).load
        (ascii "n") = some ⟨.str (ascii "9223372036854775807"), 0, 0⟩ ∧
      CacheItem.expired ⟨.str (ascii "9223372036854775807"), 0, 0⟩ 3 = false) ∧
    handleIncr ⟨[(ascii "n", ⟨.str (ascii "9223372036854775807"), 0, 0⟩)], []⟩
        (ascii "n") 3 =
      (createResponse RESP_OK (ascii "-9223372036854775808"),
        ServerState.store ⟨[(ascii "n", ⟨.str (ascii "9223372036854775807"), 0, 0⟩)], []⟩
          (ascii "n") ⟨.str (ascii "-9223372036854775808"),
            if (0 : Int) < 0 then 0 else 0, 3⟩) :=
  ⟨⟨by decide, by decide⟩,
    (c10_incr_decr_wrap
      ⟨[(ascii "n", ⟨.str (ascii "9223372036854775807"), 0, 0⟩)], []⟩
      (ascii "n") 3 0 0).1 (by decide) (by decide)⟩

/-! # Claim C7 -/

/-- The per-key MGET observation: value of a non-expired STRING, nil for
a missing, expired or wrong-type key (the three nil branches of the
fetch loop of `handleMGet`). -/
def mgetValue (s : ServerState) (now : Int) (k : Bytes) : Option Bytes :=
  match s.load k with
  | none => none
  | some item =>
    if item.expired now then none
    else
      match item.value with
      | .str b => some b
      | _ => none

/-- Deleting an expired entry does not change any key's MGET observation. -/
theorem mgetValue_expireDel (s : ServerState) (now : Int) (k k' : Bytes)
    (it : CacheItem) (hload : s.load k = some it) (hexp : it.expired now = true) :
    mgetValue (s.expireDel k) now k' = mgetValue s now k' := by
  by_cases hk : k = k'
  · subst hk
    simp [mgetValue, ServerState.load, ServerState.expireDel, lookupA_deleteA_self,
      hload, hexp]
    simp [ServerState.load] at hload
    simp [mgetValue, hload, hexp]
  · simp only [mgetValue, ServerState.load, ServerState.expireDel,
      lookupA_deleteA_ne _ _ _ hk]

/-- The values produced by the fetch loop are the per-key observations on
the state the loop started from, in request order. -/
theorem mgetFetch_values (now : Int) :
    ∀ (keys : List Bytes) (s : ServerState),
      (mgetFetch s now keys).1 = keys.map (mgetValue s now)
  | [], _ => rfl
  | k :: ks, s => by
    match hl : s.load k with
    | none =>
      simp only [mgetFetch, hl, List.map_cons, mgetFetch_values now ks s]
      simp [mgetValue, hl]
    | some item =>
      by_cases hexp : item.expired now
      · simp only [mgetFetch, hl, hexp, if_true, List.map_cons]
        rw [mgetFetch_values now ks (s.expireDel k),
          show mgetValue s now k = none from by simp [mgetValue, hl, hexp],
          List.map_congr_left fun a _ => mgetValue_expireDel s now k a item hl hexp]
      · cases hv : item.value with
        | str b =>
          simp only [mgetFetch, hl, hexp, if_false, hv, List.map_cons,
            mgetFetch_values now ks s]
          simp [mgetValue, hl, hexp, hv]
        | list xs =>
          simp only [mgetFetch, hl, hexp, if_false, hv, List.map_cons,
            mgetFetch_values now ks s]
          simp [mgetValue, hl, hexp, hv]
        | set ms =>
          simp only [mgetFetch, hl, hexp, if_false, hv, List.map_cons,
            mgetFetch_values now ks s]
          simp [mgetValue, hl, hexp, hv]
        | hash fs =>
          simp only [mgetFetch, hl, hexp, if_false, hv, List.map_cons,
            mgetFetch_values now ks s]
          simp [mgetValue, hl, hexp, hv]

/-- Parsing the canonical `[keylen key]*` encoding recovers the keys. -/
theorem mgetParseKeys_encode :
    ∀ (keys : List Bytes) (pre : Bytes), (∀ k ∈ keys, k.length < 2 ^ 32) →
      mgetParseKeys (pre ++ (keys.map (fun k => u32be k.length ++ k)).flatten)
        keys.length pre.length = .ok keys
  | [], pre, _ => by simp [mgetParseKeys]
  | k :: ks, pre, h => by
    have hk : k.length < 2 ^ 32 := h k (by simp)
    have hL : (pre ++ ((k :: ks).map (fun x => u32be x.length ++ x)).flatten).length =
        pre.length + 4 + k.length +
          ((ks.map (fun x => u32be x.length ++ x)).flatten).length := by
      simp [length_u32be]; omega
    have hdrop : (pre ++ ((k :: ks).map (fun x => u32be x.length ++ x)).flatten).drop
        pre.length =
        u32be k.length ++ (k ++ (ks.map (fun x => u32be x.length ++ x)).flatten) := by
      simp only [List.map_cons, List.flatten_cons, List.drop_left, List.append_assoc]
    have hu : u32at (pre ++ ((k :: ks).map (fun x => u32be x.length ++ x)).flatten)
        pre.length = k.length := by
      rw [u32at, hdrop, readU32_u32be _ _ hk]
    have e2 : ((pre ++ u32be k.length) ++ k).length = pre.length + 4 + k.length := by
      simp only [List.length_append, length_u32be]
    have hdata : pre ++ ((k :: ks).map (fun x => u32be x.length ++ x)).flatten =
        ((pre ++ u32be k.length) ++ k) ++ (ks.map (fun x => u32be x.length ++ x)).flatten := by
      simp [List.append_assoc]
    have hkey : bytesAt (pre ++ ((k :: ks).map (fun x => u32be x.length ++ x)).flatten)
        (pre.length + 4) k.length = k := by
      rw [bytesAt, hdata, List.append_assoc, show pre.length + 4 = (pre ++ u32be k.length).length
          from by simp [length_u32be], List.drop_left, List.take_left]
    have hrec := mgetParseKeys_encode ks ((pre ++ u32be k.length) ++ k)
      (fun x hx => h x (by simp [hx]))
    rw [e2, ← hdata] at hrec
    show mgetParseKeys _ (ks.length + 1) pre.length = _
    rw [mgetParseKeys, if_neg (by omega), hu, if_neg (by omega), hkey, hrec]
    rfl

/-- `handleMGet` on the canonical request for `keys`: the reply is OK and
encodes, per key in request order, the value for a STRING and the nil
sentinel for a missing, expired or wrong-type key. -/
theorem handleMGet_request (s : ServerState) (now : Int) (keys : List Bytes)
    (hk : ∀ k ∈ keys, k.length < 2 ^ 32) (hc : keys.length < 2 ^ 32) :
    handleMGet s (mgetRequest keys) now =
      (createResponse RESP_OK (encodeMGetResponse (keys.map (mgetValue s now))),
        (mgetFetch s now keys).2) := by
  cases keys with
  | nil =>
    simp only [handleMGet, show mgetRequest [] = [0, 0, 0, 0] from by decide]
    rfl
  | cons k ks =>
    have hL : (mgetRequest (k :: ks)).length =
        4 + (((k :: ks).map (fun x => u32be x.length ++ x)).flatten).length := by
      simp only [mgetRequest, List.length_append, length_u32be]
    have hcount : readU32 (mgetRequest (k :: ks)) = (k :: ks).length :=
      readU32_u32be _ _ hc
    have hparse := mgetParseKeys_encode (k :: ks) (u32be (k :: ks).length) hk
    rw [show (u32be (k :: ks).length).length = 4 from rfl] at hparse
    simp only [handleMGet]
    rw [if_neg (by omega), hcount, if_neg (by simp),
      show mgetRequest (k :: ks) =
        u32be (k :: ks).length ++ ((k :: ks).map (fun x => u32be x.length ++ x)).flatten
        from rfl,
      hparse]
    simp only [mgetFetch_values now (k :: ks) s]

/-- One `[keylen key valuelen value ttl]` element of an MSET body (TTL 0). -/
def encTriple (p : Bytes × Bytes) : Bytes :=
  u32be p.1.length ++ p.1 ++ u32be p.2.length ++ p.2 ++ u32be 0

/-- The cumulative effect of the MSET store loop: each pair stored as a
STRING with no expiration, left to right. -/
def msetApply : ServerState → List (Bytes × Bytes) → Int → ServerState
  | s, [], _ => s
  | s, (k, v) :: ps, now => msetApply (s.store k ⟨.str v, 0, now⟩) ps now

theorem u32at_append (pre rest : Bytes) (n : Nat) (h : n < 2 ^ 32) :
    u32at (pre ++ (u32be n ++ rest)) pre.length = n := by
  rw [u32at, List.drop_left, readU32_u32be _ _ h]

theorem bytesAt_append (pre mid rest : Bytes) :
    bytesAt (pre ++ (mid ++ rest)) pre.length mid.length = mid := by
  rw [bytesAt, List.drop_left, List.take_left]

/-- Running the MSET loop on the canonical encoding applies every pair
and replies with the ASCII total count. -/
theorem msetLoop_encode :
    ∀ (pairs : List (Bytes × Bytes)) (pre : Bytes) (s : ServerState) (n0 : Nat)
      (now : Int), (∀ p ∈ pairs, p.1.length < 2 ^ 32 ∧ p.2.length < 2 ^ 32) →
      msetLoop (pre ++ (pairs.map encTriple).flatten) now pairs.length s pre.length n0 =
        (createResponse RESP_OK (asciiOfNat (n0 + pairs.length)), msetApply s pairs now)
  | [], pre, s, n0, now, _ => by simp [msetLoop, msetApply]
  | (k, v) :: ps, pre, s, n0, now, h => by
    have hk : k.length < 2 ^ 32 := (h (k, v) (by simp)).1
    have hv : v.length < 2 ^ 32 := (h (k, v) (by simp)).2
    have hlen : (pre ++ (((k, v) :: ps).map encTriple).flatten).length =
        pre.length + 12 + k.length + v.length + ((ps.map encTriple).flatten).length := by
      simp only [List.map_cons, List.flatten_cons, encTriple, List.length_append,
        length_u32be]
      omega
    have f1 : u32at (pre ++ (((k, v) :: ps).map encTriple).flatten) pre.length =
        k.length := by
      rw [show pre ++ (((k, v) :: ps).map encTriple).flatten =
        pre ++ (u32be k.length ++
          (k ++ (u32be v.length ++ (v ++ (u32be 0 ++ (ps.map encTriple).flatten)))))
        from by simp [encTriple, List.append_assoc]]
      exact u32at_append _ _ _ hk
    have f2 : bytesAt (pre ++ (((k, v) :: ps).map encTriple).flatten)
        (pre.length + 4) k.length = k := by
      rw [show pre ++ (((k, v) :: ps).map encTriple).flatten =
        (pre ++ u32be k.length) ++
          (k ++ (u32be v.length ++ (v ++ (u32be 0 ++ (ps.map encTriple).flatten))))
        from by simp [encTriple, List.append_assoc],
        show pre.length + 4 = (pre ++ u32be k.length).length from by
          simp [length_u32be]]
      exact bytesAt_append _ _ _
    have f3 : u32at (pre ++ (((k, v) :: ps).map encTriple).flatten)
        (pre.length + 4 + k.length) = v.length := by
      rw [show pre ++ (((k, v) :: ps).map encTriple).flatten =
        ((pre ++ u32be k.length) ++ k) ++
          (u32be v.length ++ (v ++ (u32be 0 ++ (ps.map encTriple).flatten)))
        from by simp [encTriple, List.append_assoc],
        show pre.length + 4 + k.length = ((pre ++ u32be k.length) ++ k).length from by
          simp only [List.length_append, length_u32be, Nat.add_assoc]]
      exact u32at_append _ _ _ hv
    have f4 : bytesAt (pre ++ (((k, v) :: ps).map encTriple).flatten)
        (pre.length + 4 + k.length + 4) v.length = v := by
      rw [show pre ++ (((k, v) :: ps).map encTriple).flatten =
        (((pre ++ u32be k.length) ++ k) ++ u32be v.length) ++
          (v ++ (u32be 0 ++ (ps.map encTriple).flatten))
        from by simp [encTriple, List.append_assoc],
        show pre.length + 4 + k.length + 4 =
          (((pre ++ u32be k.length) ++ k) ++ u32be v.length).length from by
          simp only [List.length_append, length_u32be, Nat.add_assoc]]
      exact bytesAt_append _ _ _
    have f5 : u32at (pre ++ (((k, v) :: ps).map encTriple).flatten)
        (pre.length + 4 + k.length + 4 + v.length) = 0 := by
      rw [show pre ++ (((k, v) :: ps).map encTriple).flatten =
        ((((pre ++ u32be k.length) ++ k) ++ u32be v.length) ++ v) ++
          (u32be 0 ++ (ps.map encTriple).flatten)
        from by simp [encTriple, List.append_assoc],
        show pre.length + 4 + k.length + 4 + v.length =
          ((((pre ++ u32be k.length) ++ k) ++ u32be v.length) ++ v).length from by
          simp only [List.length_append, length_u32be, Nat.add_assoc]]
      exact u32at_append _ _ _ (by omega)
    have hrec := msetLoop_encode ps
      (((((pre ++ u32be k.length) ++ k) ++ u32be v.length) ++ v) ++ u32be 0)
      (s.store k ⟨.str v, 0, now⟩) (n0 + 1) now (fun p hp => h p (by simp [hp]))
    rw [show ((((((pre ++ u32be k.length) ++ k) ++ u32be v.length) ++ v) ++ u32be 0)).length
        = pre.length + 4 + k.length + 4 + v.length + 4 from by
        simp only [List.length_append, length_u32be, Nat.add_assoc],
      show (((((pre ++ u32be k.length) ++ k) ++ u32be v.length) ++ v) ++ u32be 0) ++
          (ps.map encTriple).flatten =
        pre ++ (((k, v) :: ps).map encTriple).flatten from by
        simp [encTriple, List.append_assoc]] at hrec
    show msetLoop _ now (ps.length + 1) s pre.length n0 = _
    simp only [msetLoop, f1, f2, f3, f4, f5]
    rw [if_neg (by omega), if_neg (by omega), if_neg (by omega), if_neg (by omega),
      if_neg (by omega), if_neg (by decide), hrec,
      show n0 + 1 + ps.length = n0 + (ps.length + 1) from by omega]
    rfl

/-- `handleMSet` on the canonical TTL-0 request stores every pair and
replies with the ASCII pair count. -/
theorem handleMSet_request (s : ServerState) (now : Int)
    (pairs : List (Bytes × Bytes))
    (h : ∀ p ∈ pairs, p.1.length < 2 ^ 32 ∧ p.2.length < 2 ^ 32)
    (hc : pairs.length < 2 ^ 32) :
    handleMSet s (u32be pairs.length ++ (pairs.map encTriple).flatten) now =
      (createResponse RESP_OK (asciiOfNat pairs.length), msetApply s pairs now) := by
  cases pairs with
  | nil =>
    simp only [handleMSet, List.map_nil, List.flatten_nil, List.append_nil,
      List.length_nil]
    rw [if_neg (by decide), show readU32 (u32be 0) = 0 from by decide, if_pos rfl]
    rfl
  | cons p ps =>
    have hlen : (u32be (p :: ps).length ++ ((p :: ps).map encTriple).flatten).length =
        4 + (((p :: ps).map encTriple).flatten).length := by
      simp [length_u32be]
    have hcount : readU32 (u32be (p :: ps).length ++ ((p :: ps).map encTriple).flatten) =
        (p :: ps).length := readU32_u32be _ _ hc
    have hloop := msetLoop_encode (p :: ps) (u32be (p :: ps).length) s 0 now h
    rw [show (u32be (p :: ps).length).length = 4 from rfl, Nat.zero_add] at hloop
    simp only [handleMSet]
    rw [if_neg (by omega), hcount, if_neg (by simp), hloop]

theorem msetApply_load_not_mem :
    ∀ (ps : List (Bytes × Bytes)) (t : ServerState) (k : Bytes) (now : Int),
      k ∉ ps.map Prod.fst → (msetApply t ps now).load k = t.load k
  | [], _, _, _, _ => rfl
  | (k', v') :: ps, t, k, now, h => by
    have h1 : k ≠ k' := fun he => h (by simp [he])
    have h2 : k ∉ ps.map Prod.fst := fun hm => h (by simp [hm])
    rw [msetApply, msetApply_load_not_mem ps _ k now h2]
    exact lookupA_storeA_ne _ _ _ _ (Ne.symm h1)

theorem msetApply_load_mem :
    ∀ (ps : List (Bytes × Bytes)) (t : ServerState) (now : Int),
      (ps.map Prod.fst).Nodup → ∀ p ∈ ps,
        (msetApply t ps now).load p.1 = some ⟨.str p.2, 0, now⟩
  | [], _, _ => fun _ p hp => absurd hp (List.not_mem_nil p)
  | (k', v') :: ps, t, now => fun hnd p hp => by
    rcases List.mem_cons.mp hp with he | hm
    · subst he
      show (msetApply (t.store k' ⟨.str v', 0, now⟩) ps now).load k' =
        some ⟨.str v', 0, now⟩
      rw [msetApply_load_not_mem ps _ k' now (by
        simpa using (List.nodup_cons.mp hnd).1)]
      exact lookupA_storeA_self _ _ _
    · exact msetApply_load_mem ps _ now (List.nodup_cons.mp hnd).2 p hm

/-- **C7.**  The MGET reply carries the count and one entry per key in
request order — the value of a non-expired STRING, the `0xFFFFFFFF` nil
sentinel (with no value bytes) for a missing, expired or wrong-type key;
and MSET of distinct pairs followed by MGET of the same keys returns the
stored values in request order. -/
theorem c7_mget_order_and_sentinel (s : ServerState) (now : Int) :
    (∀ keys : List Bytes, (∀ k ∈ keys, k.length < 2 ^ 32) → keys.length < 2 ^ 32 →
      (handleMGet s (mgetRequest keys) now).1 =
        createResponse RESP_OK (encodeMGetResponse (keys.map (mgetValue s now)))) ∧
    (∀ b : Bytes, encodeMGetResponse [none, some b] =
      u32be 2 ++ [255, 255, 255, 255] ++ (u32be b.length ++ b)) ∧
    (∀ pairs : List (Bytes × Bytes),
      (∀ p ∈ pairs, p.1.length < 2 ^ 32 ∧ p.2.length < 2 ^ 32) →
      pairs.length < 2 ^ 32 → (pairs.map Prod.fst).Nodup →
      (handleMSet s (u32be pairs.length ++ (pairs.map encTriple).flatten) now).1 =
        createResponse RESP_OK (asciiOfNat pairs.length) ∧
      (handleMGet (handleMSet s (u32be pairs.length ++ (pairs.map encTriple).flatten)
          now).2 (mgetRequest (pairs.map Prod.fst)) now).1 =
        createResponse RESP_OK
          (encodeMGetResponse (pairs.map (fun p => some p.2)))) := by
  refine ⟨fun keys hk hc => ?_, fun b => ?_, fun pairs h hc hnd => ⟨?_, ?_⟩⟩
  · rw [handleMGet_request s now keys hk hc]
  · simp [encodeMGetResponse, u32be]
  · rw [handleMSet_request s now pairs h hc]
  · rw [handleMSet_request s now pairs h hc]
    have hload := msetApply_load_mem pairs s now hnd
    rw [handleMGet_request (msetApply s pairs now) now (pairs.map Prod.fst)
      (by intro k hk; obtain ⟨p, hp, he⟩ := List.mem_map.mp hk; exact he ▸ (h p hp).1)
      (by simpa using hc)]
    simp only [List.map_map]
    congr 1
    congr 1
    refine List.map_congr_left fun p hp => ?_
    simp only [Function.comp]
    rw [mgetValue, hload p hp]
    simp [CacheItem.expired]

/-- **C7, witness**: MSET of `("a","1"), ("b","2")` into a state holding
a LIST at `"c"`, then MGET of `"a","b"`; plus the standalone MGET
characterization on a state with one STRING, the nil sentinel shape, at
time 5. -/
theorem c7_mget_order_and_sentinel_witness :
    ((∀ k ∈ [ascii "a", ascii "b"], k.length < 2 ^ 32) ∧
      ([(ascii "a", ascii "1"), (ascii "b", ascii "2")].map Prod.fst).Nodup) ∧
    (handleMGet ⟨[(ascii "c", ⟨.list [ascii "x"], 0, 0⟩)], []⟩
        (mgetRequest [ascii "a", ascii "b"]) 5).1 =
      createResponse RESP_OK
        (encodeMGetResponse ([ascii "a", ascii "b"].map
          (mgetValue ⟨[(ascii "c", ⟨.list [ascii "x"], 0, 0⟩)], []⟩ 5))) ∧
    (handleMGet (handleMSet ⟨[(ascii "c", ⟨.list [ascii "x"], 0, 0⟩)], []⟩
        (u32be 2 ++ ([(ascii "a", ascii "1"), (ascii "b", ascii "2")].map
          encTriple).flatten) 5).2
      (mgetRequest [ascii "a", ascii "b"]) 5).1 =
      createResponse RESP_OK
        (encodeMGetResponse [some (ascii "1"), some (ascii "2")]) :=
  ⟨⟨by decide, by decide⟩,
    (c7_mget_order_and_sentinel ⟨[(ascii "c", ⟨.list [ascii "x"], 0, 0⟩)], []⟩ 5).1
      [ascii "a", ascii "b"] (by decide) (by decide),
    by
      exact ((c7_mget_order_and_sentinel ⟨[(ascii "c", ⟨.list [ascii "x"], 0, 0⟩)], []⟩
        5).2.2 [(ascii "a", ascii "1"), (ascii "b", ascii "2")] (by decide) (by decide)
        (by decide)).2⟩

/-! # Claim C6 -/

/-- What one embedded frame contributes to a pipeline: a parsed message,
or a parse error with its message text. -/
inductive SlotKind where
  | okM (m : Message)
  | badF (emsg : Bytes)

/-- The frame bytes `f` parse, at any position in any surrounding buffer,
to the given slot outcome, consuming exactly the frame. -/
def FrameOk (f : Bytes) (sk : SlotKind) : Prop :=
  0 < f.length ∧ ∀ pre post : Bytes,
    parsePipelineMessage (pre ++ (f ++ post)) pre.length =
      (match sk with
       | .okM m => .ok m (pre.length + f.length)
       | .badF e => .perr e (pre.length + f.length))

/-- The reference run of a pipeline's slots: dispatch parsed messages in
order, threading the state; a bad frame contributes the error response
the loop builds for it and leaves the state alone. -/
def runSlots (now : Int) : ServerState → List SlotKind → List Response × ServerState
  | s, [] => ([], s)
  | s, .okM m :: rest =>
    let pr := processIndividualCommand s m now
    let r := runSlots now pr.2 rest
    (pr.1 :: r.1, r.2)
  | s, .badF e :: rest =>
    let r := runSlots now s rest
    (createResponse RESP_ERROR (ascii "Pipeline parse error: " ++ e) :: r.1, r.2)

theorem runSlots_length (now : Int) :
    ∀ (ks : List SlotKind) (s : ServerState), (runSlots now s ks).1.length = ks.length
  | [], _ => rfl
  | .okM m :: rest, s => by
    simp [runSlots, runSlots_length now rest]
  | .badF e :: rest, s => by
    simp [runSlots, runSlots_length now rest]

theorem getD_len_add (pre rest : Bytes) (i d : Nat) :
    (pre ++ rest).getD (pre.length + i) d = rest.getD i d := by
  induction pre with
  | nil => simp
  | cons a t ih =>
    rw [List.cons_append, show (a :: t).length + i = (t.length + i) + 1 from by
      simp [List.length_cons]; omega]
    exact ih

theorem readU32_u32be_nil (n : Nat) (h : n < 2 ^ 32) : readU32 (u32be n) = n := by
  have h2 := readU32_u32be n [] h
  rwa [List.append_nil] at h2

theorem u32chk_append (pre rest : Bytes) (n : Nat) (h : n < 2 ^ 32) :
    u32chk (pre ++ (u32be n ++ rest)) pre.length = some n := by
  rw [u32chk, sliceChk,
    if_pos (by simp only [List.length_append, length_u32be]; all_goals omega),
    bytesAt, List.drop_left]
  have ht : (u32be n ++ rest).take 4 = u32be n := by
    rw [show (4 : Nat) = (u32be n).length from rfl, List.take_left]
  rw [ht]
  simp [readU32_u32be_nil n h]

theorem sliceChk_append (pre mid rest : Bytes) :
    sliceChk (pre ++ (mid ++ rest)) pre.length mid.length = some mid := by
  rw [sliceChk,
    if_pos (by simp only [List.length_append]; all_goals omega),
    bytesAt, List.drop_left, List.take_left]

/-- A well-formed embedded SET frame parses to the SET message and
consumes exactly the frame, wherever it sits in the pipeline buffer. -/
theorem setFrame_ok (key value : Bytes) (ttl : Nat) (hk : key.length < 2 ^ 32)
    (hv : value.length < 2 ^ 32) (ht : ttl < 2 ^ 32)
    (hm : 14 + key.length + value.length < 2 ^ 32) :
    FrameOk (setFrame key value ttl)
      (.okM ⟨14 + key.length + value.length, PROTOCOL_VERSION, CMD_SET, key, value,
        ttl⟩) := by
  constructor
  · simp [setFrame, length_u32be]
  intro pre post
  have hL : (pre ++ (setFrame key value ttl ++ post)).length =
      pre.length + 18 + key.length + value.length + post.length := by
    simp only [setFrame, List.length_append, length_u32be, List.length_cons,
      List.length_nil]
    omega
  have f0 : u32at (pre ++ (setFrame key value ttl ++ post)) pre.length =
      14 + key.length + value.length := by
    rw [show pre ++ (setFrame key value ttl ++ post) =
      pre ++ (u32be (14 + key.length + value.length) ++
        ([PROTOCOL_VERSION, CMD_SET] ++ (u32be key.length ++ (key ++ (u32be ttl ++
          (u32be value.length ++ (value ++ post)))))))
      from by simp [setFrame, List.append_assoc]]
    exact u32at_append _ _ _ hm
  have fver : (pre ++ (setFrame key value ttl ++ post)).getD (pre.length + 4) 0 =
      PROTOCOL_VERSION := by
    rw [show pre ++ (setFrame key value ttl ++ post) =
      (pre ++ u32be (14 + key.length + value.length)) ++
        ([PROTOCOL_VERSION, CMD_SET] ++ (u32be key.length ++ (key ++ (u32be ttl ++
          (u32be value.length ++ (value ++ post))))))
      from by simp [setFrame, List.append_assoc],
      show pre.length + 4 = (pre ++ u32be (14 + key.length + value.length)).length + 0
        from by simp [length_u32be], getD_len_add]
    rfl
  have fcmd : (pre ++ (setFrame key value ttl ++ post)).getD (pre.length + 4 + 1) 0 =
      CMD_SET := by
    rw [show pre ++ (setFrame key value ttl ++ post) =
      (pre ++ u32be (14 + key.length + value.length)) ++
        ([PROTOCOL_VERSION, CMD_SET] ++ (u32be key.length ++ (key ++ (u32be ttl ++
          (u32be value.length ++ (value ++ post))))))
      from by simp [setFrame, List.append_assoc],
      show pre.length + 4 + 1 = (pre ++ u32be (14 + key.length + value.length)).length + 1
        from by simp [length_u32be], getD_len_add]
    rfl
  have f1 : u32chk (pre ++ (setFrame key value ttl ++ post)) (pre.length + 6) =
      some key.length := by
    rw [show pre ++ (setFrame key value ttl ++ post) =
      ((pre ++ u32be (14 + key.length + value.length)) ++ [PROTOCOL_VERSION, CMD_SET]) ++
        (u32be key.length ++ (key ++ (u32be ttl ++ (u32be value.length ++
          (value ++ post)))))
      from by simp [setFrame, List.append_assoc],
      show pre.length + 6 =
        ((pre ++ u32be (14 + key.length + value.length)) ++
          [PROTOCOL_VERSION, CMD_SET]).length from by
        simp [length_u32be]]
    exact u32chk_append _ _ _ hk
  have f2 : sliceChk (pre ++ (setFrame key value ttl ++ post)) (pre.length + 6 + 4)
      key.length = some key := by
    rw [show pre ++ (setFrame key value ttl ++ post) =
      (((pre ++ u32be (14 + key.length + value.length)) ++ [PROTOCOL_VERSION, CMD_SET]) ++
        u32be key.length) ++ (key ++ (u32be ttl ++ (u32be value.length ++
          (value ++ post))))
      from by simp [setFrame, List.append_assoc],
      show pre.length + 6 + 4 =
        (((pre ++ u32be (14 + key.length + value.length)) ++
          [PROTOCOL_VERSION, CMD_SET]) ++ u32be key.length).length from by
        simp [length_u32be]]
    exact sliceChk_append _ _ _
  have f3 : u32chk (pre ++ (setFrame key value ttl ++ post))
      (pre.length + 6 + 4 + key.length) = some ttl := by
    rw [show pre ++ (setFrame key value ttl ++ post) =
      ((((pre ++ u32be (14 + key.length + value.length)) ++ [PROTOCOL_VERSION, CMD_SET]) ++
        u32be key.length) ++ key) ++ (u32be ttl ++ (u32be value.length ++
          (value ++ post)))
      from by simp [setFrame, List.append_assoc],
      show pre.length + 6 + 4 + key.length =
        ((((pre ++ u32be (14 + key.length + value.length)) ++
          [PROTOCOL_VERSION, CMD_SET]) ++ u32be key.length) ++ key).length from by
        simp only [List.length_append, length_u32be, List.length_cons,
          List.length_nil]]
    exact u32chk_append _ _ _ ht
  have f4 : u32chk (pre ++ (setFrame key value ttl ++ post))
      (pre.length + 6 + 8 + key.length) = some value.length := by
    rw [show pre ++ (setFrame key value ttl ++ post) =
      (((((pre ++ u32be (14 + key.length + value.length)) ++ [PROTOCOL_VERSION, CMD_SET]) ++
        u32be key.length) ++ key) ++ u32be ttl) ++ (u32be value.length ++
          (value ++ post))
      from by simp [setFrame, List.append_assoc],
      show pre.length + 6 + 8 + key.length =
        (((((pre ++ u32be (14 + key.length + value.length)) ++
          [PROTOCOL_VERSION, CMD_SET]) ++ u32be key.length) ++ key) ++
            u32be ttl).length from by
        simp only [List.length_append, length_u32be, List.length_cons,
          List.length_nil]
        all_goals omega]
    exact u32chk_append _ _ _ hv
  have f5 : sliceChk (pre ++ (setFrame key value ttl ++ post))
      (pre.length + 6 + 12 + key.length) value.length = some value := by
    rw [show pre ++ (setFrame key value ttl ++ post) =
      ((((((pre ++ u32be (14 + key.length + value.length)) ++ [PROTOCOL_VERSION, CMD_SET]) ++
        u32be key.length) ++ key) ++ u32be ttl) ++ u32be value.length) ++
          (value ++ post)
      from by simp [setFrame, List.append_assoc],
      show pre.length + 6 + 12 + key.length =
        ((((((pre ++ u32be (14 + key.length + value.length)) ++
          [PROTOCOL_VERSION, CMD_SET]) ++ u32be key.length) ++ key) ++ u32be ttl) ++
            u32be value.length).length from by
        simp only [List.length_append, length_u32be, List.length_cons,
          List.length_nil]
        all_goals omega]
    exact sliceChk_append _ _ _
  rw [parsePipelineMessage, if_neg (by omega)]
  rw [f0, if_neg (by omega), fver, fcmd]
  rw [if_pos rfl, if_neg (by omega)]
  have e1 : pre.length + 4 + 2 = pre.length + 6 := by omega
  rw [e1, f1]
  simp only [Option.bind_eq_bind, Option.some_bind]
  rw [f2]
  simp only [Option.some_bind]
  rw [show pre.length + 6 + 4 + key.length = pre.length + 6 + 4 + key.length from rfl,
    f3]
  simp only [Option.some_bind]
  rw [show pre.length + 6 + 8 + key.length = pre.length + 6 + 8 + key.length from rfl,
    f4]
  simp only [Option.some_bind]
  rw [f5]
  simp only [Option.some_bind, orPanic]
  congr 1
  simp only [setFrame, List.length_append, length_u32be, List.length_cons,
    List.length_nil]
  omega

/-- A well-formed embedded GET frame parses to the GET message and
consumes exactly the frame. -/
theorem getFrame_ok (key : Bytes) (hk : key.length < 2 ^ 32)
    (hm : 6 + key.length < 2 ^ 32) :
    FrameOk (getFrame key)
      (.okM ⟨6 + key.length, PROTOCOL_VERSION, CMD_GET, key, [], 0⟩) := by
  constructor
  · simp [getFrame, length_u32be]
  intro pre post
  have hL : (pre ++ (getFrame key ++ post)).length =
      pre.length + 10 + key.length + post.length := by
    simp only [getFrame, List.length_append, length_u32be, List.length_cons,
      List.length_nil]
    all_goals omega
  have f0 : u32at (pre ++ (getFrame key ++ post)) pre.length = 6 + key.length := by
    rw [show pre ++ (getFrame key ++ post) =
      pre ++ (u32be (6 + key.length) ++
        ([PROTOCOL_VERSION, CMD_GET] ++ (u32be key.length ++ (key ++ post))))
      from by simp [getFrame, List.append_assoc]]
    exact u32at_append _ _ _ hm
  have fver : (pre ++ (getFrame key ++ post)).getD (pre.length + 4) 0 =
      PROTOCOL_VERSION := by
    rw [show pre ++ (getFrame key ++ post) =
      (pre ++ u32be (6 + key.length)) ++
        ([PROTOCOL_VERSION, CMD_GET] ++ (u32be key.length ++ (key ++ post)))
      from by simp [getFrame, List.append_assoc],
      show pre.length + 4 = (pre ++ u32be (6 + key.length)).length + 0 from by
        simp [length_u32be], getD_len_add]
    rfl
  have fcmd : (pre ++ (getFrame key ++ post)).getD (pre.length + 4 + 1) 0 =
      CMD_GET := by
    rw [show pre ++ (getFrame key ++ post) =
      (pre ++ u32be (6 + key.length)) ++
        ([PROTOCOL_VERSION, CMD_GET] ++ (u32be key.length ++ (key ++ post)))
      from by simp [getFrame, List.append_assoc],
      show pre.length + 4 + 1 = (pre ++ u32be (6 + key.length)).length + 1 from by
        simp [length_u32be], getD_len_add]
    rfl
  have f1 : u32chk (pre ++ (getFrame key ++ post)) (pre.length + 6) =
      some key.length := by
    rw [show pre ++ (getFrame key ++ post) =
      ((pre ++ u32be (6 + key.length)) ++ [PROTOCOL_VERSION, CMD_GET]) ++
        (u32be key.length ++ (key ++ post))
      from by simp [getFrame, List.append_assoc],
      show pre.length + 6 =
        ((pre ++ u32be (6 + key.length)) ++ [PROTOCOL_VERSION, CMD_GET]).length from by
        simp [length_u32be]]
    exact u32chk_append _ _ _ hk
  have f2 : sliceChk (pre ++ (getFrame key ++ post)) (pre.length + 6 + 4)
      key.length = some key := by
    rw [show pre ++ (getFrame key ++ post) =
      (((pre ++ u32be (6 + key.length)) ++ [PROTOCOL_VERSION, CMD_GET]) ++
        u32be key.length) ++ (key ++ post)
      from by simp [getFrame, List.append_assoc],
      show pre.length + 6 + 4 =
        (((pre ++ u32be (6 + key.length)) ++ [PROTOCOL_VERSION, CMD_GET]) ++
          u32be key.length).length from by
        simp [length_u32be]]
    exact sliceChk_append _ _ _
  rw [parsePipelineMessage, if_neg (by omega)]
  rw [f0, if_neg (by omega), fver, fcmd]
  rw [if_neg (by decide), if_neg (by decide), if_neg (by decide), if_neg (by decide),
    if_neg (by decide), if_neg (by decide), if_neg (by decide), if_neg (by decide),
    if_neg (by decide), if_pos (by decide), if_neg (by omega)]
  have e1 : pre.length + 4 + 2 = pre.length + 6 := by omega
  rw [e1, f1]
  simp only [Option.bind_eq_bind, Option.some_bind]
  rw [f2]
  simp only [Option.some_bind, orPanic]
  congr 1
  simp only [getFrame, List.length_append, length_u32be, List.length_cons,
    List.length_nil]
  omega

/-- An embedded MGET, MSET or PIPELINE frame hits the pipeline parser's
default branch: a parse error ("unsupported command") that still resumes
exactly after the frame. -/
theorem rawFrame_unsupported (cmd : Nat) (payload : Bytes)
    (hm : payload.length + 2 < 2 ^ 32)
    (hcmd : cmd = CMD_MGET ∨ cmd = CMD_MSET ∨ cmd = CMD_PIPELINE) :
    FrameOk (rawFrame cmd payload)
      (.badF (ascii "unsupported command in pipeline: " ++ asciiOfNat cmd)) := by
  constructor
  · simp [rawFrame, length_u32be]
  intro pre post
  have hL : (pre ++ (rawFrame cmd payload ++ post)).length =
      pre.length + 6 + payload.length + post.length := by
    simp only [rawFrame, List.length_append, length_u32be, List.length_cons,
      List.length_nil]
    all_goals omega
  have f0 : u32at (pre ++ (rawFrame cmd payload ++ post)) pre.length =
      payload.length + 2 := by
    rw [show pre ++ (rawFrame cmd payload ++ post) =
      pre ++ (u32be (payload.length + 2) ++
        ([PROTOCOL_VERSION, cmd] ++ (payload ++ post)))
      from by simp [rawFrame, List.append_assoc]]
    exact u32at_append _ _ _ hm
  have fver : (pre ++ (rawFrame cmd payload ++ post)).getD (pre.length + 4) 0 =
      PROTOCOL_VERSION := by
    rw [show pre ++ (rawFrame cmd payload ++ post) =
      (pre ++ u32be (payload.length + 2)) ++
        ([PROTOCOL_VERSION, cmd] ++ (payload ++ post))
      from by simp [rawFrame, List.append_assoc],
      show pre.length + 4 = (pre ++ u32be (payload.length + 2)).length + 0 from by
        simp [length_u32be], getD_len_add]
    rfl
  have fcmd : (pre ++ (rawFrame cmd payload ++ post)).getD (pre.length + 4 + 1) 0 =
      cmd := by
    rw [show pre ++ (rawFrame cmd payload ++ post) =
      (pre ++ u32be (payload.length + 2)) ++
        ([PROTOCOL_VERSION, cmd] ++ (payload ++ post))
      from by simp [rawFrame, List.append_assoc],
      show pre.length + 4 + 1 = (pre ++ u32be (payload.length + 2)).length + 1 from by
        simp [length_u32be], getD_len_add]
    rfl
  have hflen : (rawFrame cmd payload).length = 4 + (payload.length + 2) := by
    simp only [rawFrame, List.length_append, length_u32be, List.length_cons,
      List.length_nil]
    all_goals omega
  rw [parsePipelineMessage, if_neg (by omega)]
  rw [f0, if_neg (by omega), fver, fcmd]
  rcases hcmd with h | h | h <;> subst h <;>
    rw [if_neg (by decide), if_neg (by decide), if_neg (by decide),
      if_neg (by decide), if_neg (by decide), if_neg (by decide),
      if_neg (by decide), if_neg (by decide), if_neg (by decide),
      if_neg (by decide)] <;>
    · congr 1
      omega

/-- The pipeline loop over well-formed frames produces exactly the
reference run: one response per declared slot, in order, the state
threaded left to right. -/
theorem pipelineLoop_encode (now : Int) :
    ∀ (slots : List (Bytes × SlotKind)) (pre : Bytes) (s : ServerState),
      (∀ p ∈ slots, FrameOk p.1 p.2) →
      pipelineLoop (pre ++ (slots.map Prod.fst).flatten) now slots.length s
        pre.length = some (runSlots now s (slots.map Prod.snd))
  | [], _, _, _ => rfl
  | (f, sk) :: rest, pre, s, h => by
    obtain ⟨hpos, hparse⟩ := h (f, sk) (by simp)
    have hpos' : 0 < f.length := hpos
    have hdata : pre ++ (((f, sk) :: rest).map Prod.fst).flatten =
        pre ++ (f ++ (rest.map Prod.fst).flatten) := by
      simp
    have hlen : (pre ++ (f ++ (rest.map Prod.fst).flatten)).length =
        pre.length + f.length + ((rest.map Prod.fst).flatten).length := by
      simp only [List.length_append]
      all_goals omega
    have hpre : pre.length + f.length = (pre ++ f).length := by
      simp
    have hassoc : pre ++ (f ++ (rest.map Prod.fst).flatten) =
        (pre ++ f) ++ (rest.map Prod.fst).flatten := by
      simp
    cases sk with
    | okM m =>
      have hrec := pipelineLoop_encode now rest (pre ++ f)
        (processIndividualCommand s m now).2 (fun p hp => h p (by simp [hp]))
      show pipelineLoop _ now (rest.length + 1) s pre.length = _
      rw [hdata, pipelineLoop, if_neg (by omega), hparse pre _]
      simp only []
      rw [hpre, hassoc, hrec]
      rfl
    | badF e =>
      have hrec := pipelineLoop_encode now rest (pre ++ f) s
        (fun p hp => h p (by simp [hp]))
      show pipelineLoop _ now (rest.length + 1) s pre.length = _
      rw [hdata, pipelineLoop, if_neg (by omega), hparse pre _]
      simp only []
      rw [hpre, hassoc, hrec]
      rfl

/-- **C6.**  For a PIPELINE body declaring `N` well-formed embedded
frames, the outer response has status OK and its body is the count `N`
followed by exactly `N` serialized inner responses, in the order the
commands appeared, each the response of the single-command dispatcher on
the state threaded so far (error responses for bad frames, which do not
touch the state); and an embedded MGET, MSET or PIPELINE frame is an
unsupported frame: its slot is such a parse-error slot, while parsing
resumes right after it so the remaining slots are still processed. -/
theorem c6_pipeline_embeds_responses (s : ServerState) (now : Int)
    (slots : List (Bytes × SlotKind)) (hc : slots.length < 2 ^ 32)
    (hF : ∀ p ∈ slots, FrameOk p.1 p.2) :
    handlePipeline s (u32be slots.length ++ (slots.map Prod.fst).flatten) now =
      some (createResponse RESP_OK
        (u32be slots.length ++
          ((runSlots now s (slots.map Prod.snd)).1.map Response.encode).flatten),
        (runSlots now s (slots.map Prod.snd)).2) ∧
    (runSlots now s (slots.map Prod.snd)).1.length = slots.length ∧
    (∀ cmd payload, (cmd = CMD_MGET ∨ cmd = CMD_MSET ∨ cmd = CMD_PIPELINE) →
      payload.length + 2 < 2 ^ 32 →
      FrameOk (rawFrame cmd payload)
        (.badF (ascii "unsupported command in pipeline: " ++ asciiOfNat cmd))) := by
  refine ⟨?_, by rw [runSlots_length now]; simp,
    fun cmd payload hcmd hm => rawFrame_unsupported cmd payload hm hcmd⟩
  cases slots with
  | nil =>
    show handlePipeline s [0, 0, 0, 0] now = _
    rw [handlePipeline, if_neg (by decide), show readU32 [0, 0, 0, 0] = 0 from rfl,
      if_pos rfl]
    rfl
  | cons p rest =>
    have hcount : readU32 (u32be ((p :: rest).length) ++
        (((p :: rest)).map Prod.fst).flatten) = (p :: rest).length :=
      readU32_u32be _ _ hc
    have hloop := pipelineLoop_encode now (p :: rest) (u32be (p :: rest).length) s hF
    rw [show (u32be (p :: rest).length).length = 4 from rfl] at hloop
    simp only [handlePipeline]
    rw [if_neg (by simp only [List.length_append, length_u32be]; omega), hcount,
      if_neg (by simp), hloop]
    simp only [Option.map_some']
    rw [encodePipelineResponse, List.length_map, runSlots_length now]
    simp

/-- **C6, witness**: a pipeline of three embedded frames — SET "a" "1",
an embedded MGET frame (unsupported), and GET "a" — on the empty state;
the three well-formedness hypotheses are discharged by the frame lemmas. -/
theorem c6_pipeline_embeds_responses_witness :
    ([(setFrame (ascii "a") (ascii "1") 0,
          SlotKind.okM ⟨14 + (ascii "a").length + (ascii "1").length, PROTOCOL_VERSION,
            CMD_SET, ascii "a", ascii "1", 0⟩),
        (rawFrame CMD_MGET (u32be 0),
          SlotKind.badF (ascii "unsupported command in pipeline: " ++
            asciiOfNat CMD_MGET)),
        (getFrame (ascii "a"),
          SlotKind.okM ⟨6 + (ascii "a").length, PROTOCOL_VERSION, CMD_GET, ascii "a",
            [], 0⟩)] : List (Bytes × SlotKind)).length < 2 ^ 32 ∧
    handlePipeline emptyState
        (u32be 3 ++ (setFrame (ascii "a") (ascii "1") 0 ++
          (rawFrame CMD_MGET (u32be 0) ++ (getFrame (ascii "a") ++ [])))) 0 =
      some (createResponse RESP_OK
        (u32be 3 ++
          ((runSlots 0 emptyState
            [SlotKind.okM ⟨14 + (ascii "a").length + (ascii "1").length,
                PROTOCOL_VERSION, CMD_SET, ascii "a", ascii "1", 0⟩,
              SlotKind.badF (ascii "unsupported command in pipeline: " ++
                asciiOfNat CMD_MGET),
              SlotKind.okM ⟨6 + (ascii "a").length, PROTOCOL_VERSION, CMD_GET,
                ascii "a", [], 0⟩]).1.map Response.encode).flatten),
        (runSlots 0 emptyState
          [SlotKind.okM ⟨14 + (ascii "a").length + (ascii "1").length,
              PROTOCOL_VERSION, CMD_SET, ascii "a", ascii "1", 0⟩,
            SlotKind.badF (ascii "unsupported command in pipeline: " ++
              asciiOfNat CMD_MGET),
            SlotKind.okM ⟨6 + (ascii "a").length, PROTOCOL_VERSION, CMD_GET,
              ascii "a", [], 0⟩]).2) :=
  ⟨by decide, by
    exact (c6_pipeline_embeds_responses emptyState 0
      [(setFrame (ascii "a") (ascii "1") 0,
          SlotKind.okM ⟨14 + (ascii "a").length + (ascii "1").length, PROTOCOL_VERSION,
            CMD_SET, ascii "a", ascii "1", 0⟩),
        (rawFrame CMD_MGET (u32be 0),
          SlotKind.badF (ascii "unsupported command in pipeline: " ++
            asciiOfNat CMD_MGET)),
        (getFrame (ascii "a"),
          SlotKind.okM ⟨6 + (ascii "a").length, PROTOCOL_VERSION, CMD_GET, ascii "a",
            [], 0⟩)] (by decide)
      (by
        intro p hp
        simp only [List.mem_cons, List.not_mem_nil, or_false] at hp
        rcases hp with h | h | h <;> subst h
        · exact setFrame_ok (ascii "a") (ascii "1") 0 (by decide) (by decide)
            (by decide) (by decide)
        · exact rawFrame_unsupported CMD_MGET (u32be 0) (by decide) (Or.inl rfl)
        · exact getFrame_ok (ascii "a") (by decide) (by decide))).1⟩

end GoFast
